import Mathlib

/-!
# Circle-method IK solver (`src/main.cpp`)

Shallow embedding of the solver core of `main.cpp`: `Vector2D`,
`checkTriangleValidity`, `getIntersections`, `findSide` and `resolveIK`.

Numbers are read in exact arithmetic: the definitions are generic in a linearly
ordered field `K` and in the square-root function `sqrt : K → K` that
`std::sqrt` stands for; the theorems instantiate them at `ℝ` and `Real.sqrt`.

A division in the source is a plain `/` on floats.  In exact arithmetic a
division by zero has no value, so every function that divides returns a
`Checked` result: the value computed, and the first fault met on the way
(a division by a zero divisor or a vector read past its end).  The value of a
faulted run is not meaningful; the shape of the result (how many offsets are
returned) does not depend on it.

Rounding is not modelled.  An iteration whose triangle is degenerate (cursor,
segment and inner chain on one line) sits exactly on the boundary of
`checkTriangleValidity`, where the rounding of `float` may decide either way;
the statements below are about exact arithmetic only.
-/

namespace IK

/-- What can go wrong in a run read in exact arithmetic. -/
inductive Fault where
  | divisionByZero
  | indexOutOfBounds
  deriving DecidableEq

/-- A value together with the first fault met while computing it. -/
structure Checked (α : Type) where
  val : α
  fault : Option Fault

/-- The earlier of two faults. -/
def firstFault : Option Fault → Option Fault → Option Fault
  | some f, _ => some f
  | none, g => g

instance : Monad Checked where
  pure a := ⟨a, none⟩
  bind m f := ⟨(f m.val).val, firstFault m.fault (f m.val).fault⟩

/-- The quotient `a / b` of the source, faulting when `b` is zero. -/
def divide {K : Type} [LinearOrderedField K] (a b : K) : Checked K :=
  ⟨a / b, if b = 0 then some Fault.divisionByZero else none⟩

/-- The read `xs[i]` of a `std::vector`, faulting when `i` is past the end. -/
def readAt {α : Type} (xs : List α) (i : Nat) (dflt : α) : Checked α :=
  ⟨xs.getD i dflt, if i < xs.length then none else some Fault.indexOutOfBounds⟩

/-- The class `Vector2D` of the source: two coordinates. -/
structure Vector2D (K : Type) where
  x : K
  y : K
  deriving DecidableEq

namespace Vector2D

variable {K : Type} [LinearOrderedField K]

/-- The method `length`: `sqrt(x * x + y * y)`. -/
def length (sqrt : K → K) (v : Vector2D K) : K :=
  sqrt (v.x * v.x + v.y * v.y)

/-- The method `normalized`: both coordinates divided by the length. -/
def normalized (sqrt : K → K) (v : Vector2D K) : Checked (Vector2D K) := do
  let len := v.length sqrt
  let nx ← divide v.x len
  let ny ← divide v.y len
  pure ⟨nx, ny⟩

/-- The method `sin`: `y / length()`. -/
def sin (sqrt : K → K) (v : Vector2D K) : Checked K :=
  divide v.y (v.length sqrt)

/-- The method `cos`: `x / length()`. -/
def cos (sqrt : K → K) (v : Vector2D K) : Checked K :=
  divide v.x (v.length sqrt)

/-- The source's `operator+`. -/
def add (v other : Vector2D K) : Vector2D K :=
  ⟨v.x + other.x, v.y + other.y⟩

/-- The source's `operator-`. -/
def sub (v other : Vector2D K) : Vector2D K :=
  ⟨v.x - other.x, v.y - other.y⟩

/-- The source's `operator*` by a scalar. -/
def scale (v : Vector2D K) (scalar : K) : Vector2D K :=
  ⟨v.x * scalar, v.y * scalar⟩

end Vector2D

variable {K : Type} [LinearOrderedField K]

/-- The function `checkTriangleValidity` of the source. -/
def checkTriangleValidity (a b c : K) : Bool :=
  decide (a + b ≥ c) && decide (a + c ≥ b) && decide (b + c ≥ a)

/-- The function `getIntersections` of the source. -/
def getIntersections (sqrt : K → K) (position1 : Vector2D K) (radius1 : K)
    (position2 : Vector2D K) (radius2 : K) : Checked (Vector2D K × Vector2D K) := do
  let distanceVector := position2.sub position1
  let distance := distanceVector.length sqrt
  let q ← divide (radius1 * radius1 - radius2 * radius2 + distance * distance) (2 * distance)
  let a := max q 0
  let height := sqrt (max (radius1 * radius1 - a * a) 0)
  let s ← distanceVector.sin sqrt
  let c ← distanceVector.cos sqrt
  let heightVector : Vector2D K := ⟨-height * s, height * c⟩
  let n ← distanceVector.normalized sqrt
  let point := position1.add (n.scale a)
  let intersection1 := point.add heightVector
  let intersection2 := point.sub heightVector
  pure (intersection1, intersection2)

/-- The `for` loop of `findSide`, entered with the current candidate `side`:
`side >= minimalLength` is the loop test and `side -= 0.5f` the step. -/
def findSideFrom [FloorRing K] (minimalLength side1 side2 : K) (side : K) : K :=
  if side ≥ minimalLength then
    if checkTriangleValidity side side1 side2 then side
    else findSideFrom minimalLength side1 side2 (side - 1 / 2)
  else 0
termination_by ⌊(side - minimalLength) * 2 + 1⌋₊
decreasing_by
  rename_i h _
  have h0 : 0 ≤ (side - minimalLength) * 2 := by
    have : 0 ≤ side - minimalLength := sub_nonneg.mpr h
    positivity
  have e : (side - 1 / 2 - minimalLength) * 2 + 1 = (side - minimalLength) * 2 := by ring
  rw [e, Nat.floor_add_one h0]
  exact Nat.lt_succ_self _

/-- The function `findSide` of the source. -/
def findSide [FloorRing K] (minimalLength maximalLength side1 side2 : K) : K :=
  findSideFrom minimalLength side1 side2 maximalLength

/-- The variables of `resolveIK` that live across loop iterations. -/
structure LoopState (K : Type) where
  newVectors : List (Vector2D K)
  currentSideVector : Vector2D K

/-- One iteration of the `for` loop of `resolveIK`, at index `i`.  Besides the
state carried to the next iteration it returns the value left in the
loop-local variable `intersection` by the second, thresholded comparison. -/
def loopBody [FloorRing K] (sqrt : K → K) (chain : List K) (vectors : List (Vector2D K))
    (i : Nat) (s : LoopState K) : Checked (LoopState K × Vector2D K) := do
  let currentSide := s.currentSideVector.length sqrt
  let chainI ← readAt chain i 0
  let newSide := findSide 0 (chain.take i).sum chainI currentSide
  let intersections ← getIntersections sqrt s.currentSideVector chainI ⟨0, 0⟩ newSide
  let hint ← readAt vectors (i - 1) ⟨0, 0⟩
  let intersection :=
    if i > 0 ∧ (intersections.1.sub hint).length sqrt < (intersections.2.sub hint).length sqrt
    then intersections.1 else intersections.2
  let newVectors := s.currentSideVector.sub intersection :: s.newVectors
  let currentSideVector := intersection
  let threshold : K := 1 / 100
  let intersection :=
    if i > 0 ∧ (intersections.1.sub hint).length sqrt + threshold
        < (intersections.2.sub hint).length sqrt
    then intersections.1 else intersections.2
  pure (⟨newVectors, currentSideVector⟩, intersection)

/-- The `for` loop of `resolveIK`, `for (i = ...; i > 0; --i)`, entered at index
`i`, followed by the final insertion of the cursor at the front. -/
def loopFrom [FloorRing K] (sqrt : K → K) (chain : List K) (vectors : List (Vector2D K)) :
    Nat → LoopState K → Checked (List (Vector2D K))
  | 0, s => pure (s.currentSideVector :: s.newVectors)
  | i + 1, s => do
    let r ← loopBody sqrt chain vectors (i + 1) s
    loopFrom sqrt chain vectors i r.1

/-- The reachability clamp at the head of `resolveIK`. -/
def clampTarget (sqrt : K → K) (endEffector : Vector2D K) (maximalDistance : K) :
    Checked (Vector2D K) :=
  if endEffector.length sqrt > maximalDistance then do
    let n ← endEffector.normalized sqrt
    pure (n.scale maximalDistance)
  else pure endEffector

/-- The function `resolveIK` of the source.  The loop starts at
`chain.size() - 1`; for an empty chain that is `-1` as an `int`, the loop does
not run, which the truncated subtraction on `Nat` gives as well. -/
def resolveIK [FloorRing K] (sqrt : K → K) (chain : List K) (vectors : List (Vector2D K))
    (endEffector : Vector2D K) (maximalDistance : K) (_pole : Vector2D K) :
    Checked (List (Vector2D K)) := do
  let endEffector ← clampTarget sqrt endEffector maximalDistance
  loopFrom sqrt chain vectors (chain.length - 1) ⟨[], endEffector⟩

/-- The loop iteration as the selection rule words it: the first candidate is
chosen exactly when it is strictly nearer to `continuityHint[i - 1]` than the
second, the second otherwise; no thresholded comparison is made. -/
def loopBodySingle [FloorRing K] (sqrt : K → K) (chain : List K)
    (continuityHint : List (Vector2D K)) (i : Nat) (s : LoopState K) :
    Checked (LoopState K) := do
  let currentSide := s.currentSideVector.length sqrt
  let chainI ← readAt chain i 0
  let effectiveLength := findSide 0 (chain.take i).sum chainI currentSide
  let candidates ← getIntersections sqrt s.currentSideVector chainI ⟨0, 0⟩ effectiveLength
  let hint ← readAt continuityHint (i - 1) ⟨0, 0⟩
  let chosen :=
    if (candidates.1.sub hint).length sqrt < (candidates.2.sub hint).length sqrt
    then candidates.1 else candidates.2
  pure ⟨s.currentSideVector.sub chosen :: s.newVectors, chosen⟩

/-- The joints from `i` down to 1 resolved with `loopBodySingle`, then the base
offset. -/
def loopFromSingle [FloorRing K] (sqrt : K → K) (chain : List K)
    (continuityHint : List (Vector2D K)) : Nat → LoopState K → Checked (List (Vector2D K))
  | 0, s => pure (s.currentSideVector :: s.newVectors)
  | i + 1, s => do
    let r ← loopBodySingle sqrt chain continuityHint (i + 1) s
    loopFromSingle sqrt chain continuityHint i r

/-- The solver with the single, threshold-free selection rule. -/
def resolveIKSingle [FloorRing K] (sqrt : K → K) (chain : List K)
    (continuityHint : List (Vector2D K)) (target : Vector2D K) (reach : K) :
    Checked (List (Vector2D K)) := do
  let cursor ← clampTarget sqrt target reach
  loopFromSingle sqrt chain continuityHint (chain.length - 1) ⟨[], cursor⟩

/-- Component-wise sum of a sequence of offsets. -/
def sumOffsets (offsets : List (Vector2D K)) : Vector2D K :=
  offsets.foldr Vector2D.add ⟨0, 0⟩

/-- The value of `currentSideVector` on entry to iteration `i` of the loop of
`resolveIK`, when the loop is entered at index `start` in state `s`; for
`i = 0` it is the value after the loop, the base offset. -/
def cursorAt [FloorRing K] (sqrt : K → K) (chain : List K) (vectors : List (Vector2D K)) :
    Nat → LoopState K → Nat → Vector2D K
  | 0, s, _ => s.currentSideVector
  | start + 1, s, i =>
    if start + 1 ≤ i then s.currentSideVector
    else cursorAt sqrt chain vectors start (loopBody sqrt chain vectors (start + 1) s).val.1 i

/-- The value of `currentSideVector` on entry to iteration `i` in a run of
`resolveIK`: the clamped target for `i = chain.size() - 1`, then the
intersection selected by each iteration. -/
def resolveIKCursor [FloorRing K] (sqrt : K → K) (chain : List K)
    (vectors : List (Vector2D K)) (endEffector : Vector2D K) (maximalDistance : K)
    (i : Nat) : Vector2D K :=
  cursorAt sqrt chain vectors (chain.length - 1)
    ⟨[], (clampTarget sqrt endEffector maximalDistance).val⟩ i

@[simp] theorem firstFault_none_left (g : Option Fault) : firstFault none g = g := rfl

@[simp] theorem firstFault_some_left (f : Fault) (g : Option Fault) :
    firstFault (some f) g = some f := rfl

@[simp] theorem firstFault_none_right (f : Option Fault) : firstFault f none = f := by
  cases f <;> rfl

theorem firstFault_eq_none {f g : Option Fault} :
    firstFault f g = none ↔ f = none ∧ g = none := by
  cases f <;> simp

@[simp] theorem pure_val {α : Type} (a : α) : (pure a : Checked α).val = a := rfl

@[simp] theorem pure_fault {α : Type} (a : α) : (pure a : Checked α).fault = none := rfl

@[simp] theorem bind_val {α β : Type} (m : Checked α) (f : α → Checked β) :
    (m >>= f).val = (f m.val).val := rfl

@[simp] theorem bind_fault {α β : Type} (m : Checked α) (f : α → Checked β) :
    (m >>= f).fault = firstFault m.fault (f m.val).fault := rfl

@[simp] theorem divide_val (a b : K) : (divide a b).val = a / b := rfl

theorem divide_fault (a b : K) :
    (divide a b).fault = if b = 0 then some Fault.divisionByZero else none := rfl

@[simp] theorem readAt_val {α : Type} (xs : List α) (i : Nat) (d : α) :
    (readAt xs i d).val = xs.getD i d := rfl

theorem readAt_fault {α : Type} (xs : List α) (i : Nat) (d : α) :
    (readAt xs i d).fault = if i < xs.length then none else some Fault.indexOutOfBounds := rfl

/-! ## The two selection rules -/

theorem loopBody_val_fst [FloorRing K] (sqrt : K → K) (chain : List K)
    (vectors : List (Vector2D K)) (i : Nat) (s : LoopState K) :
    (loopBody sqrt chain vectors (i + 1) s).val.1
      = (loopBodySingle sqrt chain vectors (i + 1) s).val := by
  simp [loopBody, loopBodySingle]

theorem loopBody_fault [FloorRing K] (sqrt : K → K) (chain : List K)
    (vectors : List (Vector2D K)) (i : Nat) (s : LoopState K) :
    (loopBody sqrt chain vectors (i + 1) s).fault
      = (loopBodySingle sqrt chain vectors (i + 1) s).fault := by
  simp [loopBody, loopBodySingle]

theorem loopFrom_eq_single [FloorRing K] (sqrt : K → K) (chain : List K)
    (vectors : List (Vector2D K)) (i : Nat) (s : LoopState K) :
    loopFrom sqrt chain vectors i s = loopFromSingle sqrt chain vectors i s := by
  induction i generalizing s with
  | zero => rfl
  | succ i ih =>
    have hv := loopBody_val_fst sqrt chain vectors i s
    have hf := loopBody_fault sqrt chain vectors i s
    show (loopBody sqrt chain vectors (i + 1) s >>= fun r => loopFrom sqrt chain vectors i r.1)
      = (loopBodySingle sqrt chain vectors (i + 1) s >>= fun r =>
          loopFromSingle sqrt chain vectors i r)
    have e : ∀ {α : Type} (a b : Checked α), a.val = b.val → a.fault = b.fault → a = b := by
      intro α a b h1 h2
      cases a; cases b; simp_all
    apply e
    · simp [hv, ih]
    · simp [hv, hf, ih]

theorem findSideFrom_of_lt [FloorRing K] (minimalLength side1 side2 side : K)
    (h : side < minimalLength) : findSideFrom minimalLength side1 side2 side = 0 := by
  rw [findSideFrom]
  simp [not_le.mpr h]

theorem findSideFrom_of_valid [FloorRing K] (minimalLength side1 side2 side : K)
    (h : minimalLength ≤ side) (hv : checkTriangleValidity side side1 side2 = true) :
    findSideFrom minimalLength side1 side2 side = side := by
  rw [findSideFrom]
  simp [h, hv]

theorem findSideFrom_of_invalid [FloorRing K] (minimalLength side1 side2 side : K)
    (hv : checkTriangleValidity side side1 side2 = false) :
    findSideFrom minimalLength side1 side2 side
      = findSideFrom minimalLength side1 side2 (side - 1 / 2) := by
  by_cases h : minimalLength ≤ side
  · rw [findSideFrom]
    simp [h, hv]
  · have h1 : side < minimalLength := not_le.mp h
    have h2 : side - 1 / 2 < minimalLength := by linarith
    rw [findSideFrom_of_lt _ _ _ _ h1, findSideFrom_of_lt _ _ _ _ h2]

/-- The loop returns the first feasible candidate. -/
theorem findSideFrom_eq_first [FloorRing K] (minimalLength side1 side2 : K) (k : ℕ) :
    ∀ side : K, minimalLength ≤ side - k * (1 / 2) →
      checkTriangleValidity (side - k * (1 / 2)) side1 side2 = true →
      (∀ j : ℕ, j < k → checkTriangleValidity (side - j * (1 / 2)) side1 side2 = false) →
      findSideFrom minimalLength side1 side2 side = side - k * (1 / 2) := by
  induction k with
  | zero =>
    intro side hmin hv _
    simp only [Nat.cast_zero, zero_mul, sub_zero] at hmin hv ⊢
    exact findSideFrom_of_valid _ _ _ _ hmin hv
  | succ k ih =>
    intro side hmin hv hbefore
    have h0 : checkTriangleValidity side side1 side2 = false := by
      have := hbefore 0 (Nat.succ_pos k)
      simpa using this
    have e : ∀ j : ℕ, side - ((j + 1 : ℕ) : K) * (1 / 2) = side - 1 / 2 - (j : K) * (1 / 2) := by
      intro j; push_cast; ring
    rw [findSideFrom_of_invalid _ _ _ _ h0, e k]
    apply ih
    · rw [← e]; exact hmin
    · rw [← e]; exact hv
    · intro j hj
      rw [← e]
      exact hbefore (j + 1) (Nat.succ_lt_succ hj)

/-- The loop returns 0 when no candidate is feasible. -/
theorem findSideFrom_eq_zero [FloorRing K] (minimalLength side1 side2 : K) :
    ∀ (n : ℕ) (side : K), ⌊(side - minimalLength) * 2 + 1⌋₊ ≤ n →
      (∀ k : ℕ, minimalLength ≤ side - k * (1 / 2) →
        checkTriangleValidity (side - k * (1 / 2)) side1 side2 = false) →
      findSideFrom minimalLength side1 side2 side = 0 := by
  intro n
  induction n with
  | zero =>
    intro side hn _
    apply findSideFrom_of_lt
    by_contra hge
    have h0 : 0 ≤ (side - minimalLength) * 2 := by
      have : 0 ≤ side - minimalLength := sub_nonneg.mpr (not_lt.mp hge)
      positivity
    rw [Nat.floor_add_one h0] at hn
    omega
  | succ n ih =>
    intro side hn hall
    by_cases hge : minimalLength ≤ side
    · have h0 : checkTriangleValidity side side1 side2 = false := by
        have := hall 0 (by simpa using hge)
        simpa using this
      have e : ∀ j : ℕ, side - ((j + 1 : ℕ) : K) * (1 / 2) = side - 1 / 2 - (j : K) * (1 / 2) := by
        intro j; push_cast; ring
      rw [findSideFrom_of_invalid _ _ _ _ h0]
      apply ih
      · have h1 : 0 ≤ (side - minimalLength) * 2 := by
          have : 0 ≤ side - minimalLength := sub_nonneg.mpr hge
          positivity
        have e2 : (side - 1 / 2 - minimalLength) * 2 + 1 = (side - minimalLength) * 2 := by ring
        rw [Nat.floor_add_one h1] at hn
        rw [e2]
        omega
      · intro k hk
        rw [← e] at hk ⊢
        exact hall (k + 1) hk
    · exact findSideFrom_of_lt _ _ _ _ (not_le.mp hge)

/-! ## Shape and sum of the result -/

@[simp] theorem Vector2D.add_x (v w : Vector2D K) : (v.add w).x = v.x + w.x := rfl
@[simp] theorem Vector2D.add_y (v w : Vector2D K) : (v.add w).y = v.y + w.y := rfl
@[simp] theorem Vector2D.sub_x (v w : Vector2D K) : (v.sub w).x = v.x - w.x := rfl
@[simp] theorem Vector2D.sub_y (v w : Vector2D K) : (v.sub w).y = v.y - w.y := rfl
@[simp] theorem Vector2D.scale_x (v : Vector2D K) (c : K) : (v.scale c).x = v.x * c := rfl
@[simp] theorem Vector2D.scale_y (v : Vector2D K) (c : K) : (v.scale c).y = v.y * c := rfl

theorem Vector2D.ext_iff2 {F : Type} (v w : Vector2D F) : v = w ↔ v.x = w.x ∧ v.y = w.y := by
  cases v; cases w; simp

@[simp] theorem sumOffsets_nil : sumOffsets ([] : List (Vector2D K)) = ⟨0, 0⟩ := rfl

@[simp] theorem sumOffsets_cons (v : Vector2D K) (vs : List (Vector2D K)) :
    sumOffsets (v :: vs) = v.add (sumOffsets vs) := rfl

theorem loopBody_newVectors [FloorRing K] (sqrt : K → K) (chain : List K)
    (vectors : List (Vector2D K)) (i : Nat) (s : LoopState K) :
    (loopBody sqrt chain vectors i s).val.1.newVectors
      = s.currentSideVector.sub (loopBody sqrt chain vectors i s).val.1.currentSideVector
          :: s.newVectors := rfl

theorem loopFrom_succ [FloorRing K] (sqrt : K → K) (chain : List K)
    (vectors : List (Vector2D K)) (i : Nat) (s : LoopState K) :
    loopFrom sqrt chain vectors (i + 1) s
      = (loopBody sqrt chain vectors (i + 1) s >>= fun r => loopFrom sqrt chain vectors i r.1) :=
  rfl

theorem loopFrom_length [FloorRing K] (sqrt : K → K) (chain : List K)
    (vectors : List (Vector2D K)) (i : Nat) (s : LoopState K) :
    (loopFrom sqrt chain vectors i s).val.length = i + 1 + s.newVectors.length := by
  induction i generalizing s with
  | zero => simp [loopFrom, Nat.add_comm]
  | succ i ih =>
    rw [loopFrom_succ, bind_val, ih, loopBody_newVectors, List.length_cons]
    omega

theorem loopFrom_sum [FloorRing K] (sqrt : K → K) (chain : List K)
    (vectors : List (Vector2D K)) (i : Nat) (s : LoopState K) :
    sumOffsets (loopFrom sqrt chain vectors i s).val
      = s.currentSideVector.add (sumOffsets s.newVectors) := by
  induction i generalizing s with
  | zero => simp [loopFrom]
  | succ i ih =>
    rw [loopFrom_succ, bind_val, ih, loopBody_newVectors, sumOffsets_cons]
    rw [Vector2D.ext_iff2]
    constructor <;> simp <;> ring

theorem resolveIK_val [FloorRing K] (sqrt : K → K) (chain : List K)
    (vectors : List (Vector2D K)) (endEffector : Vector2D K) (maximalDistance : K)
    (pole : Vector2D K) :
    (resolveIK sqrt chain vectors endEffector maximalDistance pole).val
      = (loopFrom sqrt chain vectors (chain.length - 1)
          ⟨[], (clampTarget sqrt endEffector maximalDistance).val⟩).val := rfl

theorem resolveIK_fault [FloorRing K] (sqrt : K → K) (chain : List K)
    (vectors : List (Vector2D K)) (endEffector : Vector2D K) (maximalDistance : K)
    (pole : Vector2D K) :
    (resolveIK sqrt chain vectors endEffector maximalDistance pole).fault
      = firstFault (clampTarget sqrt endEffector maximalDistance).fault
          (loopFrom sqrt chain vectors (chain.length - 1)
            ⟨[], (clampTarget sqrt endEffector maximalDistance).val⟩).fault := rfl

theorem resolveIK_sum [FloorRing K] (sqrt : K → K) (chain : List K)
    (vectors : List (Vector2D K)) (endEffector : Vector2D K) (maximalDistance : K)
    (pole : Vector2D K) :
    sumOffsets (resolveIK sqrt chain vectors endEffector maximalDistance pole).val
      = (clampTarget sqrt endEffector maximalDistance).val := by
  rw [resolveIK_val, loopFrom_sum, Vector2D.ext_iff2]
  simp

/-! ## Lengths over the reals -/

theorem length_nonneg (v : Vector2D ℝ) : 0 ≤ v.length Real.sqrt := Real.sqrt_nonneg _

theorem length_mul_self (v : Vector2D ℝ) :
    v.length Real.sqrt * v.length Real.sqrt = v.x * v.x + v.y * v.y :=
  Real.mul_self_sqrt (add_nonneg (mul_self_nonneg _) (mul_self_nonneg _))

theorem length_eq_zero_iff (v : Vector2D ℝ) : v.length Real.sqrt = 0 ↔ v = ⟨0, 0⟩ := by
  constructor
  · intro h
    have h2 := length_mul_self v
    rw [h] at h2
    have hx : v.x * v.x = 0 := by nlinarith [mul_self_nonneg v.x, mul_self_nonneg v.y]
    have hy : v.y * v.y = 0 := by nlinarith [mul_self_nonneg v.x, mul_self_nonneg v.y]
    rw [Vector2D.ext_iff2]
    exact ⟨mul_self_eq_zero.mp hx, mul_self_eq_zero.mp hy⟩
  · intro h
    subst h
    simp [Vector2D.length]

/-- A length is determined by its square. -/
theorem length_eq_of_sq (v : Vector2D ℝ) (r : ℝ) (hr : 0 ≤ r)
    (h : v.x * v.x + v.y * v.y = r * r) : v.length Real.sqrt = r := by
  unfold Vector2D.length
  rw [h]
  exact Real.sqrt_mul_self hr

/-! ## Circle intersection -/

theorem getIntersections_fault (sqrt : K → K) (position1 : Vector2D K) (radius1 : K)
    (position2 : Vector2D K) (radius2 : K) :
    (getIntersections sqrt position1 radius1 position2 radius2).fault
      = if (position2.sub position1).length sqrt = 0 then some Fault.divisionByZero
        else none := by
  by_cases h : (position2.sub position1).length sqrt = 0
  · simp [getIntersections, divide_fault, h]
  · simp [getIntersections, divide_fault, h, Vector2D.sin, Vector2D.cos, Vector2D.normalized]

/-- The clamped projection `a` computed by `getIntersections`. -/
theorem getIntersections_val (sqrt : K → K) (position1 : Vector2D K) (radius1 : K)
    (position2 : Vector2D K) (radius2 : K) :
    ∀ dx dy L a h : K, dx = position2.x - position1.x → dy = position2.y - position1.y →
      L = sqrt (dx * dx + dy * dy) →
      a = max ((radius1 * radius1 - radius2 * radius2 + L * L) / (2 * L)) 0 →
      h = sqrt (max (radius1 * radius1 - a * a) 0) →
      (getIntersections sqrt position1 radius1 position2 radius2).val
        = (⟨position1.x + dx / L * a + -h * (dy / L), position1.y + dy / L * a + h * (dx / L)⟩,
           ⟨position1.x + dx / L * a - -h * (dy / L),
            position1.y + dy / L * a - h * (dx / L)⟩) := by
  intro dx dy L a h hdx hdy hL ha hh
  subst hdx hdy hL ha hh
  simp [getIntersections, Vector2D.sin, Vector2D.cos, Vector2D.normalized, Vector2D.length,
    Vector2D.add, Vector2D.sub, Vector2D.scale]

/-- Squared distances of the two returned points to the two centres, in terms
of the clamped projection `a`, the height `h` and the centre distance `L`. -/
theorem getIntersections_sq (position1 : Vector2D ℝ) (radius1 : ℝ)
    (position2 : Vector2D ℝ) (radius2 : ℝ) (L a h : ℝ)
    (hL : L = (position2.sub position1).length Real.sqrt) (hpos : L ≠ 0)
    (ha : a = max ((radius1 * radius1 - radius2 * radius2 + L * L) / (2 * L)) 0)
    (hh : h = Real.sqrt (max (radius1 * radius1 - a * a) 0))
    (p : Vector2D ℝ)
    (hp : p = (getIntersections Real.sqrt position1 radius1 position2 radius2).val.1
      ∨ p = (getIntersections Real.sqrt position1 radius1 position2 radius2).val.2) :
    (p.x - position1.x) * (p.x - position1.x) + (p.y - position1.y) * (p.y - position1.y)
        = a * a + h * h
    ∧ (p.x - position2.x) * (p.x - position2.x) + (p.y - position2.y) * (p.y - position2.y)
        = (a - L) * (a - L) + h * h := by
  have hv := getIntersections_val Real.sqrt position1 radius1 position2 radius2
    (position2.x - position1.x) (position2.y - position1.y) L a h rfl rfl hL ha hh
  have hLL : L * L = (position2.x - position1.x) * (position2.x - position1.x)
      + (position2.y - position1.y) * (position2.y - position1.y) := by
    rw [hL]; exact length_mul_self _
  obtain ⟨ux, hux⟩ : ∃ ux, ux = (position2.x - position1.x) / L := ⟨_, rfl⟩
  obtain ⟨uy, huy⟩ : ∃ uy, uy = (position2.y - position1.y) / L := ⟨_, rfl⟩
  have hdx : position2.x = position1.x + L * ux := by rw [hux]; field_simp
  have hdy : position2.y = position1.y + L * uy := by rw [huy]; field_simp
  have hu : ux * ux + uy * uy = 1 := by
    rw [hux, huy]
    field_simp
    linarith
  rw [← hux, ← huy] at hv
  rcases hp with hp | hp
  · rw [hv] at hp
    subst hp
    simp only [hdx, hdy]
    constructor
    · linear_combination (a * a + h * h) * hu
    · linear_combination ((a - L) * (a - L) + h * h) * hu
  · rw [hv] at hp
    subst hp
    simp only [hdx, hdy]
    constructor
    · linear_combination (a * a + h * h) * hu
    · linear_combination ((a - L) * (a - L) + h * h) * hu

/-- The clamped projection does not exceed `radius1` when the second radius is
at least the gap between the centre distance and `radius1`. -/
theorem projection_le (radius1 radius2 L : ℝ) (hL : 0 < L) (h1 : 0 ≤ radius1)
    (h : |L - radius1| ≤ radius2) :
    max ((radius1 * radius1 - radius2 * radius2 + L * L) / (2 * L)) 0 ≤ radius1 := by
  apply max_le _ h1
  rw [div_le_iff₀ (by linarith)]
  have h2 := abs_le.mp h
  nlinarith [h2.1, h2.2]

/-- With `0 ≤ a ≤ radius1` the height closes the right triangle. -/
theorem height_sq (radius1 a : ℝ) (ha0 : 0 ≤ a) (ha : a ≤ radius1) :
    a * a + Real.sqrt (max (radius1 * radius1 - a * a) 0)
        * Real.sqrt (max (radius1 * radius1 - a * a) 0) = radius1 * radius1 := by
  have h0 : 0 ≤ radius1 * radius1 - a * a := by nlinarith
  rw [max_eq_left h0, Real.mul_self_sqrt h0]
  ring

theorem length_sub_comm (v w : Vector2D ℝ) :
    (v.sub w).length Real.sqrt = (w.sub v).length Real.sqrt := by
  unfold Vector2D.length
  congr 1
  simp only [Vector2D.sub_x, Vector2D.sub_y]
  ring

theorem length_sub_eq_of_sq (p c : Vector2D ℝ) (r : ℝ) (hr : 0 ≤ r)
    (h : (p.x - c.x) * (p.x - c.x) + (p.y - c.y) * (p.y - c.y) = r * r) :
    (p.sub c).length Real.sqrt = r :=
  length_eq_of_sq _ r hr h

theorem length_sub_pos {position1 position2 : Vector2D ℝ} (h : position1 ≠ position2) :
    0 < (position2.sub position1).length Real.sqrt := by
  apply lt_of_le_of_ne (length_nonneg _)
  intro h0
  have h1 := (length_eq_zero_iff _).mp h0.symm
  rw [Vector2D.ext_iff2] at h1
  apply h
  rw [Vector2D.ext_iff2]
  simp only [Vector2D.sub_x, Vector2D.sub_y] at h1
  constructor <;> linarith [h1.1, h1.2]

/-- Both returned points are on the first circle as soon as
`|d - radius1| ≤ radius2`, whether the projection was clamped or not. -/
theorem intersections_on_first (position1 : Vector2D ℝ) (radius1 : ℝ)
    (position2 : Vector2D ℝ) (radius2 : ℝ) (hne : position1 ≠ position2)
    (h1 : 0 ≤ radius1)
    (h : |(position2.sub position1).length Real.sqrt - radius1| ≤ radius2)
    (p : Vector2D ℝ)
    (hp : p = (getIntersections Real.sqrt position1 radius1 position2 radius2).val.1
      ∨ p = (getIntersections Real.sqrt position1 radius1 position2 radius2).val.2) :
    (p.sub position1).length Real.sqrt = radius1 := by
  have hL := length_sub_pos hne
  have hsq := (getIntersections_sq position1 radius1 position2 radius2 _ _ _ rfl hL.ne'
    rfl rfl p hp).1
  apply length_sub_eq_of_sq _ _ _ h1
  rw [hsq]
  exact height_sq _ _ (le_max_right _ _) (projection_le _ _ _ hL h1 h)

/-- Both returned points are on both circles when the circles meet and the
projection `(radius1² - radius2² + d²) / (2 d)` is not negative, so that the
clamp to 0 does not change it. -/
theorem intersections_on_both (position1 : Vector2D ℝ) (radius1 : ℝ)
    (position2 : Vector2D ℝ) (radius2 : ℝ) (hne : position1 ≠ position2)
    (h1 : 0 ≤ radius1) (h2 : 0 ≤ radius2)
    (hlo : |radius1 - radius2| ≤ (position2.sub position1).length Real.sqrt)
    (hhi : (position2.sub position1).length Real.sqrt ≤ radius1 + radius2)
    (hproj : radius2 * radius2 ≤ radius1 * radius1
      + (position2.sub position1).length Real.sqrt
        * (position2.sub position1).length Real.sqrt)
    (p : Vector2D ℝ)
    (hp : p = (getIntersections Real.sqrt position1 radius1 position2 radius2).val.1
      ∨ p = (getIntersections Real.sqrt position1 radius1 position2 radius2).val.2) :
    (p.sub position1).length Real.sqrt = radius1
    ∧ (p.sub position2).length Real.sqrt = radius2 := by
  have hL := length_sub_pos hne
  have habs : |(position2.sub position1).length Real.sqrt - radius1| ≤ radius2 := by
    have := abs_le.mp hlo
    rw [abs_le]
    constructor <;> linarith [this.1, this.2]
  refine ⟨intersections_on_first _ _ _ _ hne h1 habs p hp, ?_⟩
  obtain ⟨L, hLdef⟩ : ∃ L, L = (position2.sub position1).length Real.sqrt := ⟨_, rfl⟩
  rw [← hLdef] at hL hproj habs
  have hsq := (getIntersections_sq position1 radius1 position2 radius2 L _ _ hLdef hL.ne'
    rfl rfl p hp).2
  have hq : 0 ≤ (radius1 * radius1 - radius2 * radius2 + L * L) / (2 * L) := by
    apply div_nonneg _ (by linarith)
    linarith
  have hht := height_sq radius1 _ (le_max_right _ _) (projection_le _ _ _ hL h1 habs)
  rw [max_eq_left hq] at hsq hht
  apply length_sub_eq_of_sq _ _ _ h2
  rw [hsq]
  have e : (radius1 * radius1 - radius2 * radius2 + L * L) / (2 * L) * (2 * L)
      = radius1 * radius1 - radius2 * radius2 + L * L := by
    field_simp
  nlinarith [hht, e]

theorem sqrt_eq_of_mul_self (x r : ℝ) (hr : 0 ≤ r) (h : x = r * r) : Real.sqrt x = r := by
  rw [h]; exact Real.sqrt_mul_self hr

theorem length_four_zero : (Vector2D.sub ⟨0, 0⟩ (⟨4, 0⟩ : Vector2D ℝ)).length Real.sqrt = 4 :=
  length_eq_of_sq _ 4 (by norm_num) (by simp)

/-! ## The cursor through the loop -/

theorem cursorAt_of_le [FloorRing K] (sqrt : K → K) (chain : List K)
    (vectors : List (Vector2D K)) (j : Nat) (s : LoopState K) (i : Nat) (h : j ≤ i) :
    cursorAt sqrt chain vectors j s i = s.currentSideVector := by
  cases j with
  | zero => rfl
  | succ j => simp [cursorAt, h]

theorem cursorAt_succ_of_lt [FloorRing K] (sqrt : K → K) (chain : List K)
    (vectors : List (Vector2D K)) (j : Nat) (s : LoopState K) (i : Nat) (h : i < j + 1) :
    cursorAt sqrt chain vectors (j + 1) s i
      = cursorAt sqrt chain vectors j (loopBody sqrt chain vectors (j + 1) s).val.1 i := by
  simp [cursorAt, Nat.not_le.mpr h]

/-- Each cursor is the intersection selected by the iteration before it. -/
theorem cursorAt_step [FloorRing K] (sqrt : K → K) (chain : List K)
    (vectors : List (Vector2D K)) (j : Nat) :
    ∀ (s : LoopState K) (k : Nat), k < j →
      cursorAt sqrt chain vectors j s k
        = (loopBody sqrt chain vectors (k + 1)
            ⟨[], cursorAt sqrt chain vectors j s (k + 1)⟩).val.1.currentSideVector := by
  induction j with
  | zero => intro s k hk; omega
  | succ j ih =>
    intro s k hk
    rw [cursorAt_succ_of_lt _ _ _ _ _ _ hk]
    by_cases hkj : k = j
    · subst hkj
      rw [cursorAt_of_le _ _ _ _ _ _ le_rfl, cursorAt_of_le _ _ _ _ _ _ le_rfl]
      rfl
    · have hlt : k < j := by omega
      rw [cursorAt_succ_of_lt _ _ _ _ _ _ (by omega), ih _ _ hlt]

theorem loopFrom_drop [FloorRing K] (sqrt : K → K) (chain : List K)
    (vectors : List (Vector2D K)) (j : Nat) :
    ∀ s : LoopState K, (loopFrom sqrt chain vectors j s).val.drop (j + 1) = s.newVectors := by
  induction j with
  | zero => intro s; simp [loopFrom]
  | succ j ih =>
    intro s
    rw [loopFrom_succ, bind_val, ← List.drop_drop, ih, loopBody_newVectors]
    rfl

/-- The offsets returned, in terms of the cursors: `offset[0]` is the last
cursor and `offset[k]` the step from cursor `k - 1` to cursor `k`. -/
theorem loopFrom_getD [FloorRing K] (sqrt : K → K) (chain : List K)
    (vectors : List (Vector2D K)) (d : Vector2D K) (j : Nat) :
    ∀ (s : LoopState K) (k : Nat), k ≤ j →
      (loopFrom sqrt chain vectors j s).val.getD k d
        = if k = 0 then cursorAt sqrt chain vectors j s 0
          else (cursorAt sqrt chain vectors j s k).sub
            (cursorAt sqrt chain vectors j s (k - 1)) := by
  induction j with
  | zero =>
    intro s k hk
    have : k = 0 := by omega
    subst this
    simp [loopFrom, cursorAt]
  | succ j ih =>
    intro s k hk
    by_cases hkj : k = j + 1
    · subst hkj
      have hd := loopFrom_drop sqrt chain vectors j (loopBody sqrt chain vectors (j + 1) s).val.1
      rw [loopBody_newVectors] at hd
      have h1 : (loopFrom sqrt chain vectors (j + 1) s).val.getD (j + 1) d
          = ((loopFrom sqrt chain vectors (j + 1) s).val.drop (j + 1)).getD 0 d := by
        simp [List.getD_eq_getElem?_getD, List.getElem?_drop]
      rw [h1, loopFrom_succ, bind_val, hd]
      simp only [List.getD_cons_zero, Nat.succ_ne_zero, if_false, Nat.add_sub_cancel]
      rw [cursorAt_of_le _ _ _ _ _ _ le_rfl, cursorAt_succ_of_lt _ _ _ _ _ _ (Nat.lt_succ_self j),
        cursorAt_of_le _ _ _ _ _ _ le_rfl]
    · have hle : k ≤ j := by omega
      rw [loopFrom_succ, bind_val, ih _ _ hle, cursorAt_succ_of_lt _ _ _ _ _ _ (by omega),
        cursorAt_succ_of_lt _ _ _ _ _ _ (by omega),
        cursorAt_succ_of_lt _ _ _ _ _ _ (by omega)]

/-! ## One iteration of the loop -/

/-- The cursor left by an iteration is one of the two points returned by
`getIntersections` for the circle of radius `chain[i]` around the cursor and
the circle of radius `findSide(...)` around the origin. -/
theorem loopBody_selected [FloorRing K] (sqrt : K → K) (chain : List K)
    (vectors : List (Vector2D K)) (i : Nat) (s : LoopState K) :
    (loopBody sqrt chain vectors i s).val.1.currentSideVector
        = (getIntersections sqrt s.currentSideVector (chain.getD i 0) ⟨0, 0⟩
            (findSide 0 (chain.take i).sum (chain.getD i 0)
              (s.currentSideVector.length sqrt))).val.1
    ∨ (loopBody sqrt chain vectors i s).val.1.currentSideVector
        = (getIntersections sqrt s.currentSideVector (chain.getD i 0) ⟨0, 0⟩
            (findSide 0 (chain.take i).sum (chain.getD i 0)
              (s.currentSideVector.length sqrt))).val.2 := by
  simp only [loopBody, bind_val, pure_val, readAt_val]
  split_ifs
  · left; rfl
  · right; rfl

theorem length_zero_sub (v : Vector2D ℝ) :
    (Vector2D.sub ⟨0, 0⟩ v).length Real.sqrt = v.length Real.sqrt := by
  unfold Vector2D.length
  congr 1
  simp only [Vector2D.sub_x, Vector2D.sub_y]
  ring

theorem length_sub_zero (v : Vector2D ℝ) :
    (v.sub ⟨0, 0⟩).length Real.sqrt = v.length Real.sqrt := by
  unfold Vector2D.length
  congr 1
  simp only [Vector2D.sub_x, Vector2D.sub_y]
  ring

/-- A feasible triple has three non-negative sides. -/
theorem checkTriangleValidity_bounds {a b c : ℝ} (h : checkTriangleValidity a b c = true) :
    0 ≤ a ∧ 0 ≤ b ∧ 0 ≤ c ∧ |c - b| ≤ a := by
  simp only [checkTriangleValidity, Bool.and_eq_true, decide_eq_true_eq, ge_iff_le] at h
  obtain ⟨⟨h1, h2⟩, h3⟩ := h
  refine ⟨by linarith, by linarith, by linarith, ?_⟩
  rw [abs_le]
  constructor <;> linarith

/-- The offset recorded by an iteration has the length of its segment when the
cursor is not the origin and `findSide` returned a feasible length. -/
theorem loopBody_offset_length (chain : List ℝ) (vectors : List (Vector2D ℝ)) (i : Nat)
    (s : LoopState ℝ) (hcur : s.currentSideVector ≠ ⟨0, 0⟩)
    (hvalid : checkTriangleValidity
      (findSide 0 (chain.take i).sum (chain.getD i 0) (s.currentSideVector.length Real.sqrt))
      (chain.getD i 0) (s.currentSideVector.length Real.sqrt) = true) :
    (s.currentSideVector.sub
      (loopBody Real.sqrt chain vectors i s).val.1.currentSideVector).length Real.sqrt
      = chain.getD i 0 := by
  have hb := checkTriangleValidity_bounds hvalid
  rw [length_sub_comm]
  exact intersections_on_first s.currentSideVector (chain.getD i 0) ⟨0, 0⟩
    (findSide 0 (chain.take i).sum (chain.getD i 0) (s.currentSideVector.length Real.sqrt))
    hcur hb.2.1 (by rw [length_zero_sub]; exact hb.2.2.2) _
    (loopBody_selected Real.sqrt chain vectors i s)

theorem length_on_x_axis (x : ℝ) (hx : 0 ≤ x) :
    (⟨x, 0⟩ : Vector2D ℝ).length Real.sqrt = x :=
  length_eq_of_sq _ x hx (by simp)

theorem clampTarget_of_le (endEffector : Vector2D ℝ) (maximalDistance : ℝ)
    (h : endEffector.length Real.sqrt ≤ maximalDistance) :
    clampTarget Real.sqrt endEffector maximalDistance = pure endEffector := by
  unfold clampTarget
  rw [if_neg (not_lt.mpr h)]

theorem resolveIK_getD (sqrt : K → K) [FloorRing K] (chain : List K)
    (vectors : List (Vector2D K)) (endEffector : Vector2D K) (maximalDistance : K)
    (pole : Vector2D K) (i : Nat) (h1 : 1 ≤ i) (h2 : i < chain.length) :
    (resolveIK sqrt chain vectors endEffector maximalDistance pole).val.getD i ⟨0, 0⟩
      = (resolveIKCursor sqrt chain vectors endEffector maximalDistance i).sub
          (loopBody sqrt chain vectors i
            ⟨[], resolveIKCursor sqrt chain vectors endEffector maximalDistance i⟩
            ).val.1.currentSideVector := by
  rw [resolveIK_val, loopFrom_getD _ _ _ _ _ _ _ (by omega), if_neg (by omega)]
  unfold resolveIKCursor
  rw [cursorAt_step _ _ _ _ _ (i - 1) (by omega)]
  have e : i - 1 + 1 = i := by omega
  rw [e]

/-! ## Where a run divides by zero -/

theorem loopBody_fault_of_bounds [FloorRing K] (sqrt : K → K) (chain : List K)
    (vectors : List (Vector2D K)) (i : Nat) (s : LoopState K) (h1 : i < chain.length)
    (h2 : i - 1 < vectors.length) :
    (loopBody sqrt chain vectors i s).fault
      = if (Vector2D.sub ⟨0, 0⟩ s.currentSideVector).length sqrt = 0
        then some Fault.divisionByZero else none := by
  simp only [loopBody, bind_fault, pure_fault, firstFault_none_right, readAt_fault,
    getIntersections_fault, readAt_val, if_pos h1, if_pos h2, firstFault_none_left]

theorem loopFrom_fault_succ [FloorRing K] (sqrt : K → K) (chain : List K)
    (vectors : List (Vector2D K)) (i : Nat) (s : LoopState K) :
    (loopFrom sqrt chain vectors (i + 1) s).fault
      = firstFault (loopBody sqrt chain vectors (i + 1) s).fault
          (loopFrom sqrt chain vectors i (loopBody sqrt chain vectors (i + 1) s).val.1).fault :=
  rfl

/-- With all reads in bounds the loop can only fault by a division by zero, and
does so exactly when some iteration is entered with the cursor at the origin. -/
theorem loopFrom_fault_iff (chain : List ℝ) (vectors : List (Vector2D ℝ)) (j : Nat) :
    ∀ s : LoopState ℝ, j < chain.length → j ≤ vectors.length →
      ((loopFrom Real.sqrt chain vectors j s).fault = none
        ↔ ∀ i, 1 ≤ i → i ≤ j → cursorAt Real.sqrt chain vectors j s i ≠ ⟨0, 0⟩)
      ∧ (loopFrom Real.sqrt chain vectors j s).fault ≠ some Fault.indexOutOfBounds := by
  induction j with
  | zero =>
    intro s _ _
    refine ⟨⟨fun _ i h1 h2 => by omega, fun _ => rfl⟩, ?_⟩
    simp [loopFrom]
  | succ j ih =>
    intro s h1 h2
    have hb := loopBody_fault_of_bounds Real.sqrt chain vectors (j + 1) s h1 (by simpa using h2)
    have ih2 := ih (loopBody Real.sqrt chain vectors (j + 1) s).val.1 (by omega) (by omega)
    rw [loopFrom_fault_succ, hb, length_zero_sub]
    by_cases hz : s.currentSideVector = ⟨0, 0⟩
    · rw [if_pos ((length_eq_zero_iff _).mpr hz)]
      refine ⟨⟨fun h => by simp at h, fun h => ?_⟩, by simp⟩
      exact absurd (by rw [cursorAt_of_le _ _ _ _ _ _ le_rfl]; exact hz)
        (h (j + 1) (by omega) le_rfl)
    · rw [if_neg (fun h => hz ((length_eq_zero_iff _).mp h)), firstFault_none_left]
      refine ⟨⟨fun h i hi1 hi2 => ?_, fun h => ?_⟩, ih2.2⟩
      · by_cases hij : i = j + 1
        · subst hij
          rw [cursorAt_of_le _ _ _ _ _ _ le_rfl]
          exact hz
        · rw [cursorAt_succ_of_lt _ _ _ _ _ _ (by omega)]
          exact ih2.1.mp h i hi1 (by omega)
      · apply ih2.1.mpr
        intro i hi1 hi2
        have := h i hi1 (by omega)
        rwa [cursorAt_succ_of_lt _ _ _ _ _ _ (by omega)] at this

theorem normalized_fault (v : Vector2D ℝ) (h : v.length Real.sqrt ≠ 0) :
    (v.normalized Real.sqrt).fault = none := by
  simp [Vector2D.normalized, divide_fault, h]

theorem clampTarget_fault (endEffector : Vector2D ℝ) (maximalDistance : ℝ)
    (h : 0 ≤ maximalDistance) :
    (clampTarget Real.sqrt endEffector maximalDistance).fault = none := by
  unfold clampTarget
  split_ifs with hgt
  · have hne : endEffector.length Real.sqrt ≠ 0 := by
      have : 0 < endEffector.length Real.sqrt := lt_of_le_of_lt h hgt
      exact this.ne'
    simp [normalized_fault _ hne]
  · rfl

theorem sum_nonneg_of_valid (chain : List ℝ) (hvalid : ∀ c ∈ chain, 0 < c) :
    0 ≤ chain.sum :=
  List.sum_nonneg (fun c hc => (hvalid c hc).le)

/-- At the origin a chain of two or more segments divides by zero in its first
iteration. -/
theorem resolveIK_fault_at_origin (chain : List ℝ) (vectors : List (Vector2D ℝ))
    (maximalDistance : ℝ) (pole : Vector2D ℝ) (h2 : 2 ≤ chain.length)
    (hlen : vectors.length = chain.length) (hr : 0 ≤ maximalDistance) :
    (resolveIK Real.sqrt chain vectors ⟨0, 0⟩ maximalDistance pole).fault
      = some Fault.divisionByZero := by
  have hz : (⟨0, 0⟩ : Vector2D ℝ).length Real.sqrt = 0 := (length_eq_zero_iff _).mpr rfl
  rw [resolveIK_fault, clampTarget_of_le _ _ (by rw [hz]; exact hr)]
  obtain ⟨j, hj⟩ : ∃ j, chain.length - 1 = j + 1 := ⟨chain.length - 2, by omega⟩
  rw [hj, pure_fault, firstFault_none_left, pure_val, loopFrom_fault_succ,
    loopBody_fault_of_bounds _ _ _ _ _ (by omega) (by omega), length_zero_sub, if_pos hz]
  rfl

/-! ## Iterations that land on the inner circle -/

theorem length_ne_zero_iff (v : Vector2D ℝ) : v.length Real.sqrt ≠ 0 ↔ v ≠ ⟨0, 0⟩ :=
  not_congr (length_eq_zero_iff v)

/-- An iteration entered with a cursor of length `d > 0` for which the whole
inner sum `S` is feasible with `c = chain[i]` and `d`, and not longer than the
hypotenuse on `c` and `d`, leaves a cursor of length exactly `S` and records an
offset of length exactly `c`. -/
theorem loopBody_exact_of_eq (chain : List ℝ) (vectors : List (Vector2D ℝ)) (i : Nat)
    (s : LoopState ℝ) (c S d : ℝ) (hcdef : chain.getD i 0 = c)
    (hSdef : (chain.take i).sum = S) (hddef : s.currentSideVector.length Real.sqrt = d)
    (hc : 0 ≤ c) (hS : 0 ≤ S) (hd : 0 < d) (h1 : d ≤ S + c) (h2 : c ≤ S + d)
    (h3 : S * S ≤ c * c + d * d) :
    (loopBody Real.sqrt chain vectors i s).val.1.currentSideVector.length Real.sqrt = S
    ∧ (s.currentSideVector.sub
        (loopBody Real.sqrt chain vectors i s).val.1.currentSideVector).length Real.sqrt
        = c := by
  have hsel := loopBody_selected Real.sqrt chain vectors i s
  rw [hcdef, hSdef, hddef] at hsel
  have h4 : S ≤ c + d := by
    by_contra hlt
    have hlt2 : c + d < S := not_le.mp hlt
    nlinarith
  have hfs : findSide 0 S c d = S := by
    unfold findSide
    apply findSideFrom_of_valid _ _ _ _ hS
    simp only [checkTriangleValidity, Bool.and_eq_true, decide_eq_true_eq, ge_iff_le]
    exact ⟨⟨h1, h2⟩, h4⟩
  rw [hfs] at hsel
  have hne : s.currentSideVector ≠ ⟨0, 0⟩ := by
    rw [← length_ne_zero_iff, hddef]
    exact hd.ne'
  have hL : (Vector2D.sub ⟨0, 0⟩ s.currentSideVector).length Real.sqrt = d := by
    rw [length_zero_sub, hddef]
  have hboth := intersections_on_both s.currentSideVector c ⟨0, 0⟩ S hne hc hS
    (by rw [hL, abs_le]; constructor <;> linarith) (by rw [hL]; linarith)
    (by rw [hL]; exact h3) _ hsel
  rw [length_sub_zero] at hboth
  rw [length_sub_comm]
  exact ⟨hboth.2, hboth.1⟩

theorem loopBody_exact (chain : List ℝ) (vectors : List (Vector2D ℝ)) (i : Nat)
    (s : LoopState ℝ) (hc : 0 ≤ chain.getD i 0) (hS : 0 ≤ (chain.take i).sum)
    (hd : 0 < s.currentSideVector.length Real.sqrt)
    (h1 : s.currentSideVector.length Real.sqrt ≤ (chain.take i).sum + chain.getD i 0)
    (h2 : chain.getD i 0 ≤ (chain.take i).sum + s.currentSideVector.length Real.sqrt)
    (h3 : (chain.take i).sum * (chain.take i).sum
      ≤ chain.getD i 0 * chain.getD i 0
        + s.currentSideVector.length Real.sqrt * s.currentSideVector.length Real.sqrt) :
    (loopBody Real.sqrt chain vectors i s).val.1.currentSideVector.length Real.sqrt
        = (chain.take i).sum
    ∧ (s.currentSideVector.sub
        (loopBody Real.sqrt chain vectors i s).val.1.currentSideVector).length Real.sqrt
        = chain.getD i 0 :=
  loopBody_exact_of_eq chain vectors i s _ _ _ rfl rfl rfl hc hS hd h1 h2 h3

theorem take_sum_succ (chain : List ℝ) (j : Nat) (h : j < chain.length) :
    (chain.take (j + 1)).sum = (chain.take j).sum + chain.getD j 0 := by
  rw [List.sum_take_succ chain j h, List.getD_eq_getElem chain 0 h]

theorem take_sum_nonneg (chain : List ℝ) (hvalid : ∀ c ∈ chain, 0 < c) (j : Nat) :
    0 ≤ (chain.take j).sum :=
  List.sum_nonneg (fun c hc => (hvalid c (List.mem_of_mem_take hc)).le)

theorem getD_pos (chain : List ℝ) (hvalid : ∀ c ∈ chain, 0 < c) (j : Nat)
    (h : j < chain.length) : 0 < chain.getD j 0 := by
  rw [List.getD_eq_getElem chain 0 h]
  exact hvalid _ (List.getElem_mem _)

/-- In exact arithmetic: from an iteration that lands on the inner circle on,
every iteration does, the run meets no fault and every offset has the length
of its segment. -/
theorem loopFrom_exact (chain : List ℝ) (vectors : List (Vector2D ℝ))
    (hvalid : ∀ c ∈ chain, 0 < c) (j : Nat) :
    ∀ s : LoopState ℝ, j < chain.length → j ≤ vectors.length →
      0 < s.currentSideVector.length Real.sqrt →
      s.currentSideVector.length Real.sqrt ≤ (chain.take j).sum + chain.getD j 0 →
      chain.getD j 0 ≤ (chain.take j).sum + s.currentSideVector.length Real.sqrt →
      (chain.take j).sum * (chain.take j).sum
        ≤ chain.getD j 0 * chain.getD j 0
          + s.currentSideVector.length Real.sqrt * s.currentSideVector.length Real.sqrt →
      (loopFrom Real.sqrt chain vectors j s).fault = none
      ∧ ∀ i, i ≤ j →
          ((loopFrom Real.sqrt chain vectors j s).val.getD i ⟨0, 0⟩).length Real.sqrt
            = chain.getD i 0 := by
  induction j with
  | zero =>
    intro s _ _ _ h1 h2 _
    refine ⟨rfl, fun i hi => ?_⟩
    have hi0 : i = 0 := by omega
    subst hi0
    simp only [List.take_zero, List.sum_nil, zero_add] at h1 h2
    simp only [loopFrom, pure_val, List.getD_cons_zero]
    exact le_antisymm h1 h2
  | succ j ih =>
    intro s hj1 hj2 hd h1 h2 h3
    have hstep := loopBody_exact chain vectors (j + 1) s (getD_pos chain hvalid _ hj1).le
      (take_sum_nonneg chain hvalid _) hd h1 h2 h3
    have hcj := getD_pos chain hvalid j (by omega)
    have hSj := take_sum_nonneg chain hvalid j
    have hsum := take_sum_succ chain j (by omega)
    have hrec := ih (loopBody Real.sqrt chain vectors (j + 1) s).val.1 (by omega) (by omega)
      (by rw [hstep.1, hsum]; linarith) (by rw [hstep.1, hsum])
      (by rw [hstep.1, hsum]; linarith) (by rw [hstep.1, hsum]; nlinarith)
    have hb := loopBody_fault_of_bounds Real.sqrt chain vectors (j + 1) s hj1
      (by simpa using hj2)
    rw [length_zero_sub, if_neg hd.ne'] at hb
    refine ⟨by rw [loopFrom_fault_succ, hb, hrec.1]; rfl, fun i hi => ?_⟩
    by_cases hij : i = j + 1
    · subst hij
      rw [loopFrom_getD _ _ _ _ _ _ _ le_rfl, if_neg (Nat.succ_ne_zero j),
        cursorAt_of_le _ _ _ _ _ _ le_rfl, Nat.add_sub_cancel,
        cursorAt_succ_of_lt _ _ _ _ _ _ (Nat.lt_succ_self j),
        cursorAt_of_le _ _ _ _ _ _ le_rfl]
      exact hstep.2
    · rw [loopFrom_succ, bind_val]
      exact hrec.2 i (by omega)

/-! ## The clamp and the sum of the offsets -/

theorem clampTarget_of_gt (endEffector : Vector2D ℝ) (maximalDistance : ℝ)
    (h : maximalDistance < endEffector.length Real.sqrt) :
    (clampTarget Real.sqrt endEffector maximalDistance).val
      = (endEffector.normalized Real.sqrt).val.scale maximalDistance := by
  unfold clampTarget
  rw [if_pos h]
  rfl

theorem normalized_val (v : Vector2D ℝ) :
    (v.normalized Real.sqrt).val
      = ⟨v.x / v.length Real.sqrt, v.y / v.length Real.sqrt⟩ := rfl

/-- A clamped target has length `maximalDistance`. -/
theorem clamped_length (endEffector : Vector2D ℝ) (maximalDistance : ℝ)
    (h0 : 0 ≤ maximalDistance) (h : maximalDistance < endEffector.length Real.sqrt) :
    ((endEffector.normalized Real.sqrt).val.scale maximalDistance).length Real.sqrt
      = maximalDistance := by
  have hL : 0 < endEffector.length Real.sqrt := lt_of_le_of_lt h0 h
  have hsq := length_mul_self endEffector
  apply length_eq_of_sq _ _ h0
  rw [normalized_val]
  simp only [Vector2D.scale_x, Vector2D.scale_y]
  field_simp
  nlinarith

theorem clampTarget_length (endEffector : Vector2D ℝ) (maximalDistance : ℝ)
    (h0 : 0 ≤ maximalDistance) :
    (clampTarget Real.sqrt endEffector maximalDistance).val.length Real.sqrt
      = min (endEffector.length Real.sqrt) maximalDistance := by
  by_cases h : maximalDistance < endEffector.length Real.sqrt
  · rw [clampTarget_of_gt _ _ h, clamped_length _ _ h0 h, min_eq_right h.le]
  · rw [clampTarget_of_le _ _ (not_lt.mp h), pure_val, min_eq_left (not_lt.mp h)]

/-- A run whose reads are in bounds and whose reach is not negative meets no
fault exactly when no iteration is entered with the cursor at the origin. -/
theorem resolveIK_fault_eq_none_iff (chain : List ℝ) (vectors : List (Vector2D ℝ))
    (endEffector : Vector2D ℝ) (maximalDistance : ℝ) (pole : Vector2D ℝ)
    (hne : chain ≠ []) (hr : 0 ≤ maximalDistance) (hlen : vectors.length = chain.length) :
    ((resolveIK Real.sqrt chain vectors endEffector maximalDistance pole).fault = none
      ↔ ∀ i, 1 ≤ i → i < chain.length →
          resolveIKCursor Real.sqrt chain vectors endEffector maximalDistance i ≠ ⟨0, 0⟩)
    ∧ (resolveIK Real.sqrt chain vectors endEffector maximalDistance pole).fault
        ≠ some Fault.indexOutOfBounds := by
  have hpos : 0 < chain.length := List.length_pos.mpr hne
  have hl := loopFrom_fault_iff chain vectors (chain.length - 1)
    ⟨[], (clampTarget Real.sqrt endEffector maximalDistance).val⟩ (by omega) (by omega)
  rw [resolveIK_fault, clampTarget_fault _ _ hr, firstFault_none_left]
  refine ⟨?_, hl.2⟩
  rw [hl.1]
  unfold resolveIKCursor
  constructor
  · intro h i h1 h2
    exact h i h1 (by omega)
  · intro h i h1 h2
    exact h i h1 (by omega)

/-! ## Runs on concrete chains -/

theorem loopBody_cursor_eq [FloorRing K] (sqrt : K → K) (chain : List K)
    (vectors : List (Vector2D K)) (i : Nat) (s : LoopState K)
    (g : Vector2D K × Vector2D K)
    (hg : (getIntersections sqrt s.currentSideVector (chain.getD i 0) ⟨0, 0⟩
      (findSide 0 (chain.take i).sum (chain.getD i 0) (s.currentSideVector.length sqrt))).val
        = g) :
    (loopBody sqrt chain vectors i s).val.1.currentSideVector
      = if i > 0 ∧ (g.1.sub (vectors.getD (i - 1) ⟨0, 0⟩)).length sqrt
            < (g.2.sub (vectors.getD (i - 1) ⟨0, 0⟩)).length sqrt
        then g.1 else g.2 := by
  subst hg
  rfl

/-- The chain of the demonstration program. -/
theorem demo_take_sum :
    (([30, 20, 30, 20, 20, 30] : List ℝ).take 5).sum = 120
    ∧ (([30, 20, 30, 20, 20, 30] : List ℝ).take 4).sum = 100
    ∧ ([30, 20, 30, 20, 20, 30] : List ℝ).sum = 150 := by
  refine ⟨?_, ?_, ?_⟩ <;> norm_num

/-- First iteration of the demonstration chain for the target (100, 0): the
projection is clamped and the cursor moves to (100, 30). -/
theorem demo_first_step (l : List (Vector2D ℝ)) :
    (loopBody Real.sqrt [30, 20, 30, 20, 20, 30] (List.replicate 6 ⟨0, 0⟩) 5
      ⟨l, ⟨100, 0⟩⟩).val.1.currentSideVector = ⟨100, 30⟩ := by
  have hs : findSide (0 : ℝ) 120 30 100 = 120 :=
    findSideFrom_of_valid _ _ _ _ (by norm_num) (by simp [checkTriangleValidity]; norm_num)
  have hg : (getIntersections Real.sqrt (⟨100, 0⟩ : Vector2D ℝ) 30 ⟨0, 0⟩ 120).val
      = (⟨100, -30⟩, ⟨100, 30⟩) := by
    rw [getIntersections_val Real.sqrt ⟨100, 0⟩ 30 ⟨0, 0⟩ 120 (-100) 0 100 0 30 (by norm_num)
      (by norm_num) (sqrt_eq_of_mul_self _ _ (by norm_num) (by norm_num)).symm
      (by norm_num) (sqrt_eq_of_mul_self _ _ (by norm_num) (by norm_num)).symm]
    norm_num
  rw [loopBody_cursor_eq Real.sqrt _ _ 5 _ (⟨100, -30⟩, ⟨100, 30⟩)
    (by
      simp only [List.getD_cons_succ, List.getD_cons_zero]
      rw [demo_take_sum.1, length_on_x_axis _ (by norm_num), hs, hg])]
  have he : ((⟨100, -30⟩ : Vector2D ℝ).sub ⟨0, 0⟩).length Real.sqrt
      = ((⟨100, 30⟩ : Vector2D ℝ).sub ⟨0, 0⟩).length Real.sqrt := by
    unfold Vector2D.length
    congr 1
    simp only [Vector2D.sub_x, Vector2D.sub_y]
    norm_num
  have hh : (List.replicate 6 (⟨0, 0⟩ : Vector2D ℝ)).getD (5 - 1) ⟨0, 0⟩ = ⟨0, 0⟩ := by
    simp [List.replicate]
  rw [hh, he, if_neg (fun h => lt_irrefl _ h.2)]

theorem demo_valid : ∀ c ∈ ([30, 20, 30, 20, 20, 30] : List ℝ), 0 < c := by
  intro c hc
  simp only [List.mem_cons, List.mem_singleton, List.not_mem_nil, or_false] at hc
  rcases hc with h | h | h | h | h | h <;> rw [h] <;> norm_num

/-- The loop on the demonstration chain, entered at the tip with the cursor at
(100, 0): no fault, and each offset has the length of its segment. -/
theorem demo_loop :
    (loopFrom Real.sqrt [30, 20, 30, 20, 20, 30] (List.replicate 6 ⟨0, 0⟩) 5
      ⟨[], ⟨100, 0⟩⟩).fault = none
    ∧ ∀ i, i ≤ 5 →
        ((loopFrom Real.sqrt [30, 20, 30, 20, 20, 30] (List.replicate 6 ⟨0, 0⟩) 5
          ⟨[], ⟨100, 0⟩⟩).val.getD i ⟨0, 0⟩).length Real.sqrt
          = ([30, 20, 30, 20, 20, 30] : List ℝ).getD i 0 := by
  have hcur := demo_first_step []
  have hsq := length_mul_self (⟨100, 30⟩ : Vector2D ℝ)
  have hnn := length_nonneg (⟨100, 30⟩ : Vector2D ℝ)
  simp only at hsq
  have hrec := loopFrom_exact [30, 20, 30, 20, 20, 30] (List.replicate 6 ⟨0, 0⟩) demo_valid 4
    (loopBody Real.sqrt [30, 20, 30, 20, 20, 30] (List.replicate 6 ⟨0, 0⟩) 5
      ⟨[], ⟨100, 0⟩⟩).val.1 (by simp) (by simp)
    (by rw [hcur]; nlinarith)
    (by rw [hcur, demo_take_sum.2.1]; simp only [List.getD_cons_succ, List.getD_cons_zero]
        nlinarith)
    (by rw [hcur, demo_take_sum.2.1]; simp only [List.getD_cons_succ, List.getD_cons_zero]
        nlinarith)
    (by rw [hcur, demo_take_sum.2.1]; simp only [List.getD_cons_succ, List.getD_cons_zero]
        nlinarith)
  have hb := loopBody_fault_of_bounds Real.sqrt [30, 20, 30, 20, 20, 30]
    (List.replicate 6 (⟨0, 0⟩ : Vector2D ℝ)) 5 ⟨[], ⟨100, 0⟩⟩ (by simp) (by simp)
  have h100 : (⟨100, 0⟩ : Vector2D ℝ).length Real.sqrt = 100 :=
    length_on_x_axis _ (by norm_num)
  rw [length_zero_sub, h100, if_neg (by norm_num)] at hb
  refine ⟨by rw [loopFrom_fault_succ, hb, hrec.1]; rfl, fun i hi => ?_⟩
  by_cases hi5 : i = 5
  · subst hi5
    rw [loopFrom_getD _ _ _ _ _ _ _ le_rfl, if_neg (by norm_num),
      cursorAt_of_le _ _ _ _ _ _ le_rfl,
      cursorAt_succ_of_lt _ _ _ _ _ _ (by norm_num), cursorAt_of_le _ _ _ _ _ _ le_rfl, hcur]
    simp only [List.getD_cons_succ, List.getD_cons_zero]
    exact length_eq_of_sq _ 30 (by norm_num) (by simp)
  · rw [loopFrom_succ, bind_val]
    exact hrec.2 i (by omega)

/-- The demonstration scenario in exact arithmetic: chain [30,20,30,20,20,30],
zero hint, target (100, 0), reach 150. -/
theorem demo_run (pole : Vector2D ℝ) :
    (resolveIK Real.sqrt [30, 20, 30, 20, 20, 30] (List.replicate 6 ⟨0, 0⟩) ⟨100, 0⟩ 150
      pole).fault = none
    ∧ ∀ i, i < 6 →
        ((resolveIK Real.sqrt [30, 20, 30, 20, 20, 30] (List.replicate 6 ⟨0, 0⟩) ⟨100, 0⟩ 150
          pole).val.getD i ⟨0, 0⟩).length Real.sqrt
          = ([30, 20, 30, 20, 20, 30] : List ℝ).getD i 0 := by
  have hclamp : clampTarget Real.sqrt (⟨100, 0⟩ : Vector2D ℝ) 150 = pure ⟨100, 0⟩ :=
    clampTarget_of_le _ _ (by rw [length_on_x_axis _ (by norm_num)]; norm_num)
  rw [resolveIK_fault, resolveIK_val, hclamp]
  exact ⟨demo_loop.1, fun i hi => demo_loop.2 i (by omega)⟩

/-- In exact arithmetic: a run on a valid chain with `reach = sum(chain)` whose
clamped target has length `d > 0` with `last ≤ S + d` and `S² ≤ last² + d²`,
`last` the last segment and `S` the sum of the others: no fault, every offset
of the length of its segment. -/
theorem resolveIK_exact (chain : List ℝ) (vectors : List (Vector2D ℝ))
    (endEffector : Vector2D ℝ) (maximalDistance : ℝ) (pole : Vector2D ℝ)
    (hne : chain ≠ []) (hvalid : ∀ c ∈ chain, 0 < c) (hreach : maximalDistance = chain.sum)
    (hlen : vectors.length = chain.length) (htarget : endEffector ≠ ⟨0, 0⟩)
    (hlast : chain.getD (chain.length - 1) 0
      ≤ (chain.take (chain.length - 1)).sum
        + min (endEffector.length Real.sqrt) maximalDistance)
    (hproj : (chain.take (chain.length - 1)).sum * (chain.take (chain.length - 1)).sum
      ≤ chain.getD (chain.length - 1) 0 * chain.getD (chain.length - 1) 0
        + min (endEffector.length Real.sqrt) maximalDistance
          * min (endEffector.length Real.sqrt) maximalDistance) :
    (resolveIK Real.sqrt chain vectors endEffector maximalDistance pole).fault = none
    ∧ ∀ i, i < chain.length →
        ((resolveIK Real.sqrt chain vectors endEffector maximalDistance pole).val.getD i
          ⟨0, 0⟩).length Real.sqrt = chain.getD i 0 := by
  have hpos : 0 < chain.length := List.length_pos.mpr hne
  have hsum : chain.sum
      = (chain.take (chain.length - 1)).sum + chain.getD (chain.length - 1) 0 := by
    have h := take_sum_succ chain (chain.length - 1) (by omega)
    have e : chain.length - 1 + 1 = chain.length := by omega
    rw [e, List.take_length] at h
    exact h
  have hlastpos := getD_pos chain hvalid (chain.length - 1) (by omega)
  have hS := take_sum_nonneg chain hvalid (chain.length - 1)
  have hr : 0 < maximalDistance := by rw [hreach, hsum]; linarith
  have ht : 0 < endEffector.length Real.sqrt :=
    lt_of_le_of_ne (length_nonneg _) (Ne.symm ((length_ne_zero_iff _).mpr htarget))
  have hd := clampTarget_length endEffector maximalDistance hr.le
  have hl := loopFrom_exact chain vectors hvalid (chain.length - 1)
    ⟨[], (clampTarget Real.sqrt endEffector maximalDistance).val⟩ (by omega) (by omega)
    (by rw [hd]; exact lt_min ht hr)
    (by rw [hd, ← hsum, ← hreach]; exact min_le_right _ _)
    (by rw [hd]; exact hlast) (by rw [hd]; exact hproj)
  rw [resolveIK_fault, resolveIK_val, clampTarget_fault _ _ hr.le, firstFault_none_left]
  exact ⟨hl.1, fun i hi => hl.2 i (by omega)⟩

/-! ## Offsets that miss the length of their segment -/

theorem findSide_collapse : findSide (0 : ℝ) (3 / 2) (1 / 8) (1 / 8) = 0 := by
  have h := findSideFrom_eq_first (0 : ℝ) (1 / 8) (1 / 8) 3 (3 / 2) (by norm_num)
    (by simp [checkTriangleValidity]; norm_num)
    (by
      intro j hj
      have h2 : (j : ℝ) ≤ 2 := by exact_mod_cast Nat.lt_succ_iff.mp hj
      simp only [checkTriangleValidity, Bool.and_eq_false_imp, decide_eq_true_eq,
        decide_eq_false_iff_not, not_le, ge_iff_le]
      intro _
      linarith)
  rw [findSide, h]
  norm_num

/-- The tip iteration of the chain [1, 1/2, 1/8] for the target (1/8, 0): the
only feasible inner length is 0 and the cursor collapses onto the origin. -/
theorem collapse_step (l : List (Vector2D ℝ)) :
    (loopBody Real.sqrt [1, 1 / 2, 1 / 8] (List.replicate 3 ⟨0, 0⟩) 2
      ⟨l, ⟨1 / 8, 0⟩⟩).val.1.currentSideVector = ⟨0, 0⟩ := by
  have hg : (getIntersections Real.sqrt (⟨1 / 8, 0⟩ : Vector2D ℝ) (1 / 8) ⟨0, 0⟩ 0).val
      = (⟨0, 0⟩, ⟨0, 0⟩) := by
    rw [getIntersections_val Real.sqrt ⟨1 / 8, 0⟩ (1 / 8) ⟨0, 0⟩ 0 (-(1 / 8)) 0 (1 / 8) (1 / 8)
      0 (by norm_num) (by norm_num)
      (sqrt_eq_of_mul_self _ _ (by norm_num) (by norm_num)).symm
      (by norm_num) (sqrt_eq_of_mul_self _ _ (by norm_num) (by norm_num)).symm]
    norm_num
  have hsum : (([1, 1 / 2, 1 / 8] : List ℝ).take 2).sum = 3 / 2 := by norm_num
  rw [loopBody_cursor_eq Real.sqrt _ _ 2 _ (⟨0, 0⟩, ⟨0, 0⟩)
    (by
      simp only [List.getD_cons_succ, List.getD_cons_zero]
      rw [hsum, length_on_x_axis _ (by norm_num), findSide_collapse, hg])]
  simp

/-- The valid chain [1, 1/2, 1/8] with reach 13/8, zero hint and target
(1/8, 0): the second iteration is entered with the cursor at the origin and
divides by zero. -/
theorem resolveIK_collapse_divides_by_zero :
    (resolveIK Real.sqrt [1, 1 / 2, 1 / 8] (List.replicate 3 ⟨0, 0⟩) ⟨1 / 8, 0⟩ (13 / 8)
      ⟨0, 0⟩).fault = some Fault.divisionByZero := by
  have h1 : (⟨1 / 8, 0⟩ : Vector2D ℝ).length Real.sqrt = 1 / 8 :=
    length_on_x_axis _ (by norm_num)
  have hz : (⟨0, 0⟩ : Vector2D ℝ).length Real.sqrt = 0 := (length_eq_zero_iff _).mpr rfl
  have hclamp : clampTarget Real.sqrt (⟨1 / 8, 0⟩ : Vector2D ℝ) (13 / 8) = pure ⟨1 / 8, 0⟩ :=
    clampTarget_of_le _ _ (by rw [h1]; norm_num)
  have hb2 := loopBody_fault_of_bounds Real.sqrt [1, 1 / 2, 1 / 8]
    (List.replicate 3 (⟨0, 0⟩ : Vector2D ℝ)) 2 ⟨[], ⟨1 / 8, 0⟩⟩ (by simp) (by simp)
  rw [length_zero_sub, h1, if_neg (by norm_num)] at hb2
  have hb1 := loopBody_fault_of_bounds Real.sqrt [1, 1 / 2, 1 / 8]
    (List.replicate 3 (⟨0, 0⟩ : Vector2D ℝ)) 1
    (loopBody Real.sqrt [1, 1 / 2, 1 / 8] (List.replicate 3 ⟨0, 0⟩) 2
      ⟨[], ⟨1 / 8, 0⟩⟩).val.1 (by simp) (by simp)
  rw [length_zero_sub, collapse_step, if_pos hz] at hb1
  rw [resolveIK_fault, hclamp]
  show firstFault none (loopFrom Real.sqrt [1, 1 / 2, 1 / 8] _ 2 ⟨[], ⟨1 / 8, 0⟩⟩).fault = _
  rw [loopFrom_fault_succ, hb2, loopFrom_fault_succ, hb1]
  rfl

/-! ## Offsets of iterations on a triangle that is not flat -/

/-- C1 (amended): for a non-empty chain, a hint of the same length, a reach
`≥ 0` and a target for which no iteration of the loop is entered with the
cursor at the origin, `resolveIK` divides by no zero and the sum of the offsets
it returns is the clamped target: the target itself when
`length(target) ≤ reach`, and `normalize(target) * reach`, of magnitude
`reach`, when `length(target) > reach`. -/
theorem resolveIK_sum_eq_clamped_target (chain : List ℝ) (vectors : List (Vector2D ℝ))
    (endEffector : Vector2D ℝ) (maximalDistance : ℝ) (pole : Vector2D ℝ)
    (hne : chain ≠ []) (hlen : vectors.length = chain.length) (hr : 0 ≤ maximalDistance)
    (hcur : ∀ i, 1 ≤ i → i < chain.length →
      resolveIKCursor Real.sqrt chain vectors endEffector maximalDistance i ≠ ⟨0, 0⟩) :
    (resolveIK Real.sqrt chain vectors endEffector maximalDistance pole).fault = none
    ∧ (endEffector.length Real.sqrt ≤ maximalDistance →
        sumOffsets (resolveIK Real.sqrt chain vectors endEffector maximalDistance pole).val
          = endEffector)
    ∧ (maximalDistance < endEffector.length Real.sqrt →
        sumOffsets (resolveIK Real.sqrt chain vectors endEffector maximalDistance pole).val
          = (endEffector.normalized Real.sqrt).val.scale maximalDistance
        ∧ (sumOffsets (resolveIK Real.sqrt chain vectors endEffector maximalDistance
            pole).val).length Real.sqrt = maximalDistance) := by
  refine ⟨(resolveIK_fault_eq_none_iff chain vectors endEffector maximalDistance pole hne hr
    hlen).1.mpr hcur, fun h => ?_, fun h => ?_⟩
  · rw [resolveIK_sum, clampTarget_of_le _ _ h, pure_val]
  · rw [resolveIK_sum, clampTarget_of_gt _ _ h]
    exact ⟨rfl, clamped_length _ _ hr h⟩

/-- The two scenarios of the chain [30,20,30,20,20,30] with reach 150 and zero
hint: the target (100, 0) is reached, the target (300, 0) is clamped to
(150, 0). -/
theorem resolveIK_sum_eq_clamped_target_witness :
    sumOffsets (resolveIK Real.sqrt [30, 20, 30, 20, 20, 30] (List.replicate 6 ⟨0, 0⟩)
      ⟨100, 0⟩ 150 ⟨0, 0⟩).val = ⟨100, 0⟩
    ∧ sumOffsets (resolveIK Real.sqrt [30, 20, 30, 20, 20, 30] (List.replicate 6 ⟨0, 0⟩)
      ⟨300, 0⟩ 150 ⟨0, 0⟩).val = ⟨150, 0⟩ := by
  have h100 : (⟨100, 0⟩ : Vector2D ℝ).length Real.sqrt = 100 :=
    length_on_x_axis _ (by norm_num)
  have h300 : (⟨300, 0⟩ : Vector2D ℝ).length Real.sqrt = 300 :=
    length_on_x_axis _ (by norm_num)
  have hmin : min ((⟨300, 0⟩ : Vector2D ℝ).length Real.sqrt) 150 = 150 := by
    rw [h300]; norm_num
  have hfar := resolveIK_exact [30, 20, 30, 20, 20, 30] (List.replicate 6 ⟨0, 0⟩)
    ⟨300, 0⟩ 150 ⟨0, 0⟩ (by simp) demo_valid demo_take_sum.2.2.symm (by simp)
    (by simp [Vector2D.ext_iff2])
    (by rw [hmin]; simp only [List.length_cons, List.length_nil]; norm_num)
    (by rw [hmin]; simp only [List.length_cons, List.length_nil]; norm_num)
  have hnear := (resolveIK_sum_eq_clamped_target [30, 20, 30, 20, 20, 30]
    (List.replicate 6 ⟨0, 0⟩) ⟨100, 0⟩ 150 ⟨0, 0⟩ (by simp) (by simp) (by norm_num)
    ((resolveIK_fault_eq_none_iff _ _ _ _ _ (by simp) (by norm_num) (by simp)).1.mp
      (demo_run ⟨0, 0⟩).1)).2.1 (by rw [h100]; norm_num)
  have hclamped := ((resolveIK_sum_eq_clamped_target [30, 20, 30, 20, 20, 30]
    (List.replicate 6 ⟨0, 0⟩) ⟨300, 0⟩ 150 ⟨0, 0⟩ (by simp) (by simp) (by norm_num)
    ((resolveIK_fault_eq_none_iff _ _ _ _ _ (by simp) (by norm_num) (by simp)).1.mp
      hfar.1)).2.2 (by rw [h300]; norm_num)).1
  refine ⟨hnear, ?_⟩
  rw [hclamped, normalized_val, h300, Vector2D.ext_iff2]
  norm_num

/-- C1 (counterexample): chain [30,20,30,20,20,30] with reach 150, zero hint and
the target at the origin: the run divides by a zero length in its first
iteration (`getIntersections` with both centres at the origin), so it is not
a run without fault whose offsets sum to the target. -/
theorem resolveIK_sum_undefined_at_origin :
    (resolveIK Real.sqrt [30, 20, 30, 20, 20, 30] (List.replicate 6 ⟨0, 0⟩) ⟨0, 0⟩ 150
      ⟨0, 0⟩).fault = some Fault.divisionByZero
    ∧ ¬ ((resolveIK Real.sqrt [30, 20, 30, 20, 20, 30] (List.replicate 6 ⟨0, 0⟩) ⟨0, 0⟩ 150
        ⟨0, 0⟩).fault = none
      ∧ sumOffsets (resolveIK Real.sqrt [30, 20, 30, 20, 20, 30] (List.replicate 6 ⟨0, 0⟩)
        ⟨0, 0⟩ 150 ⟨0, 0⟩).val = ⟨0, 0⟩) := by
  have h := resolveIK_fault_at_origin [30, 20, 30, 20, 20, 30]
    (List.replicate 6 (⟨0, 0⟩ : Vector2D ℝ)) 150 ⟨0, 0⟩ (by simp) (by simp) (by norm_num)
  refine ⟨h, fun hc => ?_⟩
  rw [h] at hc
  exact absurd hc.1 (by simp)

/-- C3: for a non-empty chain `resolveIK` returns exactly as many offsets as the
chain has segments, for every hint (of the same length or not), target, reach
and pole, and whether or not the run met a fault. -/
theorem resolveIK_length [FloorRing K] (sqrt : K → K) (chain : List K)
    (vectors : List (Vector2D K)) (endEffector : Vector2D K) (maximalDistance : K)
    (pole : Vector2D K) (hne : chain ≠ []) :
    (resolveIK sqrt chain vectors endEffector maximalDistance pole).val.length
      = chain.length := by
  rw [resolveIK_val, loopFrom_length]
  have : 0 < chain.length := List.length_pos.mpr hne
  simp only [List.length_nil]
  omega

/-- The chain [30,20,30,20,20,30] is solved into six offsets. -/
theorem resolveIK_length_witness :
    ([30, 20, 30, 20, 20, 30] : List ℝ) ≠ []
    ∧ (resolveIK Real.sqrt [30, 20, 30, 20, 20, 30] (List.replicate 6 ⟨0, 0⟩) ⟨100, 0⟩ 150
        ⟨0, 0⟩).val.length = 6 :=
  ⟨by simp, resolveIK_length Real.sqrt _ _ _ _ _ (by simp)⟩

/-- C4 (amended): for two circles with distinct centres and non-negative radii
that meet (`|radius1 - radius2| ≤ d ≤ radius1 + radius2`) and whose projection
`(radius1² - radius2² + d²) / (2 d)` is not negative
(`radius2² ≤ radius1² + d²`), `getIntersections` divides by no zero and each of
the two returned points is at distance `radius1` from `position1` and at
distance `radius2` from `position2`. -/
theorem getIntersections_on_both_circles (position1 : Vector2D ℝ) (radius1 : ℝ)
    (position2 : Vector2D ℝ) (radius2 : ℝ) (hne : position1 ≠ position2)
    (h1 : 0 ≤ radius1) (h2 : 0 ≤ radius2)
    (hlo : |radius1 - radius2| ≤ (position2.sub position1).length Real.sqrt)
    (hhi : (position2.sub position1).length Real.sqrt ≤ radius1 + radius2)
    (hproj : radius2 * radius2 ≤ radius1 * radius1
      + (position2.sub position1).length Real.sqrt
        * (position2.sub position1).length Real.sqrt) :
    (getIntersections Real.sqrt position1 radius1 position2 radius2).fault = none
    ∧ ((getIntersections Real.sqrt position1 radius1 position2 radius2).val.1.sub
        position1).length Real.sqrt = radius1
    ∧ ((getIntersections Real.sqrt position1 radius1 position2 radius2).val.1.sub
        position2).length Real.sqrt = radius2
    ∧ ((getIntersections Real.sqrt position1 radius1 position2 radius2).val.2.sub
        position1).length Real.sqrt = radius1
    ∧ ((getIntersections Real.sqrt position1 radius1 position2 radius2).val.2.sub
        position2).length Real.sqrt = radius2 := by
  have ha := intersections_on_both position1 radius1 position2 radius2 hne h1 h2 hlo hhi
    hproj _ (Or.inl rfl)
  have hb := intersections_on_both position1 radius1 position2 radius2 hne h1 h2 hlo hhi
    hproj _ (Or.inr rfl)
  refine ⟨?_, ha.1, ha.2, hb.1, hb.2⟩
  rw [getIntersections_fault, if_neg (length_sub_pos hne).ne']

/-- The circles of centre (4,0), radius 3 and of centre (0,0), radius 4: the
first returned point is at distance 4 from the origin. -/
theorem getIntersections_on_both_circles_witness :
    ((getIntersections Real.sqrt ⟨4, 0⟩ 3 ⟨0, 0⟩ 4).val.1.sub ⟨0, 0⟩).length Real.sqrt = 4 :=
  (getIntersections_on_both_circles ⟨4, 0⟩ 3 ⟨0, 0⟩ 4 (by simp [Vector2D.ext_iff2])
    (by norm_num) (by norm_num) (by rw [length_four_zero]; norm_num [abs_le])
    (by rw [length_four_zero]; norm_num) (by rw [length_four_zero]; norm_num)).2.2.1

/-- C4 (counterexample): the circles of centre (4,0), radius 3 and of centre
(0,0), radius 6 have centre distance 4, between |3 - 6| and 3 + 6, so they
meet; the projection (9 - 36 + 16) / 8 is negative and clamped to 0, and
`getIntersections` returns (4,-3) and (4,3), which are at distance 5, not 6,
from the second centre. -/
theorem getIntersections_clamped_off_second :
    (Vector2D.sub ⟨0, 0⟩ (⟨4, 0⟩ : Vector2D ℝ)).length Real.sqrt = 4
    ∧ |(3 : ℝ) - 6| ≤ 4 ∧ (4 : ℝ) ≤ 3 + 6
    ∧ (getIntersections Real.sqrt ⟨4, 0⟩ 3 ⟨0, 0⟩ 6).val = (⟨4, -3⟩, ⟨4, 3⟩)
    ∧ ((getIntersections Real.sqrt ⟨4, 0⟩ 3 ⟨0, 0⟩ 6).val.1.sub ⟨0, 0⟩).length Real.sqrt ≠ 6
    ∧ ((getIntersections Real.sqrt ⟨4, 0⟩ 3 ⟨0, 0⟩ 6).val.2.sub ⟨0, 0⟩).length Real.sqrt
        ≠ 6 := by
  have hv : (getIntersections Real.sqrt ⟨4, 0⟩ 3 ⟨0, 0⟩ 6).val
      = ((⟨4, -3⟩ : Vector2D ℝ), (⟨4, 3⟩ : Vector2D ℝ)) := by
    rw [getIntersections_val Real.sqrt ⟨4, 0⟩ 3 ⟨0, 0⟩ 6 (-4) 0 4 0 3 (by norm_num)
      (by norm_num) (sqrt_eq_of_mul_self _ _ (by norm_num) (by norm_num)).symm
      (by norm_num) (sqrt_eq_of_mul_self _ _ (by norm_num) (by norm_num)).symm]
    norm_num
  refine ⟨length_four_zero, by norm_num [abs_le], by norm_num, hv, ?_, ?_⟩
  · rw [hv, length_eq_of_sq _ 5 (by norm_num) (by simp; norm_num)]
    norm_num
  · rw [hv, length_eq_of_sq _ 5 (by norm_num) (by simp; norm_num)]
    norm_num

/-- C5: `findSide` scans the candidates `maximalLength`, `maximalLength - 0.5`,
`maximalLength - 1.0`, ... that are at least `minimalLength` and returns the
first one that passes `checkTriangleValidity` with `side1` and `side2`; when no
candidate of the sequence passes (as when `maximalLength < minimalLength`) it
returns 0.  In particular `findSide(0, 50, 30, 10) = 40`. -/
theorem findSide_first_feasible :
    (∀ minimalLength maximalLength side1 side2 : ℝ,
      (∃ k : ℕ, minimalLength ≤ maximalLength - k * (1 / 2)
          ∧ checkTriangleValidity (maximalLength - k * (1 / 2)) side1 side2 = true
          ∧ (∀ j : ℕ, j < k →
              checkTriangleValidity (maximalLength - j * (1 / 2)) side1 side2 = false)
          ∧ findSide minimalLength maximalLength side1 side2 = maximalLength - k * (1 / 2))
      ∨ ((∀ k : ℕ, minimalLength ≤ maximalLength - k * (1 / 2) →
              checkTriangleValidity (maximalLength - k * (1 / 2)) side1 side2 = false)
          ∧ findSide minimalLength maximalLength side1 side2 = 0))
    ∧ (∀ minimalLength maximalLength side1 side2 : ℝ, maximalLength < minimalLength →
        findSide minimalLength maximalLength side1 side2 = 0)
    ∧ findSide (0 : ℝ) 50 30 10 = 40 := by
  refine ⟨?_, ?_, ?_⟩
  · intro minimalLength maximalLength side1 side2
    by_cases hex : ∃ k : ℕ, minimalLength ≤ maximalLength - k * (1 / 2)
        ∧ checkTriangleValidity (maximalLength - k * (1 / 2)) side1 side2 = true
    · left
      classical
      refine ⟨Nat.find hex, (Nat.find_spec hex).1, (Nat.find_spec hex).2, ?_, ?_⟩
      · intro j hj
        have hnot := Nat.find_min hex hj
        have hge : minimalLength ≤ maximalLength - j * (1 / 2) := by
          have h1 := (Nat.find_spec hex).1
          have h2 : (j : ℝ) ≤ (Nat.find hex : ℕ) := by exact_mod_cast hj.le
          linarith
        cases hc : checkTriangleValidity (maximalLength - j * (1 / 2)) side1 side2 with
        | false => rfl
        | true => exact absurd ⟨hge, hc⟩ hnot
      · refine findSideFrom_eq_first _ _ _ _ _ (Nat.find_spec hex).1 (Nat.find_spec hex).2 ?_
        intro j hj
        have hnot := Nat.find_min hex hj
        have hge : minimalLength ≤ maximalLength - j * (1 / 2) := by
          have h1 := (Nat.find_spec hex).1
          have h2 : (j : ℝ) ≤ (Nat.find hex : ℕ) := by exact_mod_cast hj.le
          linarith
        cases hc : checkTriangleValidity (maximalLength - j * (1 / 2)) side1 side2 with
        | false => rfl
        | true => exact absurd ⟨hge, hc⟩ hnot
    · right
      have hall : ∀ k : ℕ, minimalLength ≤ maximalLength - k * (1 / 2) →
          checkTriangleValidity (maximalLength - k * (1 / 2)) side1 side2 = false := by
        intro k hk
        cases hc : checkTriangleValidity (maximalLength - k * (1 / 2)) side1 side2 with
        | false => rfl
        | true => exact absurd ⟨k, hk, hc⟩ hex
      exact ⟨hall, findSideFrom_eq_zero _ _ _ _ _ le_rfl hall⟩
  · intro minimalLength maximalLength side1 side2 h
    exact findSideFrom_of_lt _ _ _ _ h
  · have h := findSideFrom_eq_first (0 : ℝ) 30 10 20 50 (by norm_num)
      (by simp [checkTriangleValidity]; norm_num)
      (by
        intro j hj
        have h2 : (j : ℝ) < 20 := by exact_mod_cast hj
        simp only [checkTriangleValidity, Bool.and_eq_false_imp, decide_eq_true_eq,
          decide_eq_false_iff_not, not_le, ge_iff_le]
        intro _
        linarith)
    rw [findSide, h]
    norm_num

/-- C6 (amended): for a valid chain (non-empty, all lengths positive) with
`reach = sum(chain)`, a hint of the same length and any target, every read of
the chain and of the hint made by the loop is in bounds, the reachability
clamp divides by no zero, the only fault a run can meet is a division by a
zero length, and it meets none exactly when no iteration of the loop is
entered with the cursor at the origin. -/
theorem resolveIK_defined_iff (chain : List ℝ) (vectors : List (Vector2D ℝ))
    (endEffector : Vector2D ℝ) (maximalDistance : ℝ) (pole : Vector2D ℝ)
    (hne : chain ≠ []) (hvalid : ∀ c ∈ chain, 0 < c) (hreach : maximalDistance = chain.sum)
    (hlen : vectors.length = chain.length) :
    ((resolveIK Real.sqrt chain vectors endEffector maximalDistance pole).fault = none
      ↔ ∀ i, 1 ≤ i → i < chain.length →
          resolveIKCursor Real.sqrt chain vectors endEffector maximalDistance i ≠ ⟨0, 0⟩)
    ∧ (resolveIK Real.sqrt chain vectors endEffector maximalDistance pole).fault
        ≠ some Fault.indexOutOfBounds
    ∧ (∀ i, 1 ≤ i → i < chain.length →
        (readAt chain i 0).fault = none ∧ (readAt vectors (i - 1) ⟨0, 0⟩).fault = none)
    ∧ (clampTarget Real.sqrt endEffector maximalDistance).fault = none := by
  have hr : 0 ≤ maximalDistance := by rw [hreach]; exact sum_nonneg_of_valid chain hvalid
  have h := resolveIK_fault_eq_none_iff chain vectors endEffector maximalDistance pole hne hr
    hlen
  refine ⟨h.1, h.2, fun i _ h2 => ?_, clampTarget_fault _ _ hr⟩
  rw [readAt_fault, readAt_fault, if_pos h2, if_pos (by omega)]
  exact ⟨rfl, rfl⟩

/-- In the scenario chain [30,20,30,20,20,30], zero hint, target (100, 0),
reach 150, the run meets no fault and the cursors entering the first and the
last iteration are not the origin. -/
theorem resolveIK_defined_iff_witness :
    (resolveIK Real.sqrt [30, 20, 30, 20, 20, 30] (List.replicate 6 ⟨0, 0⟩) ⟨100, 0⟩ 150
      ⟨0, 0⟩).fault = none
    ∧ resolveIKCursor Real.sqrt [30, 20, 30, 20, 20, 30] (List.replicate 6 ⟨0, 0⟩) ⟨100, 0⟩
        150 5 ≠ ⟨0, 0⟩
    ∧ resolveIKCursor Real.sqrt [30, 20, 30, 20, 20, 30] (List.replicate 6 ⟨0, 0⟩) ⟨100, 0⟩
        150 1 ≠ ⟨0, 0⟩ :=
  ⟨(demo_run ⟨0, 0⟩).1,
   (resolveIK_defined_iff [30, 20, 30, 20, 20, 30] (List.replicate 6 ⟨0, 0⟩) ⟨100, 0⟩ 150
    ⟨0, 0⟩ (by simp) demo_valid demo_take_sum.2.2.symm (by simp)).1.mp (demo_run ⟨0, 0⟩).1 5
      (by norm_num) (by simp),
   (resolveIK_defined_iff [30, 20, 30, 20, 20, 30] (List.replicate 6 ⟨0, 0⟩) ⟨100, 0⟩ 150
    ⟨0, 0⟩ (by simp) demo_valid demo_take_sum.2.2.symm (by simp)).1.mp (demo_run ⟨0, 0⟩).1 1
      (by norm_num) (by simp)⟩

/-- C6 (counterexample): the valid chain [1, 1] with reach 2 = 1 + 1, zero hint
and the target at the origin: the first iteration calls `getIntersections`
with both centres at the origin and divides by the zero distance. -/
theorem resolveIK_origin_divides_by_zero :
    (∀ c ∈ ([1, 1] : List ℝ), 0 < c) ∧ (2 : ℝ) = ([1, 1] : List ℝ).sum
    ∧ (resolveIK Real.sqrt [1, 1] [⟨0, 0⟩, ⟨0, 0⟩] ⟨0, 0⟩ 2 ⟨0, 0⟩).fault
        = some Fault.divisionByZero := by
  refine ⟨?_, by norm_num, resolveIK_fault_at_origin _ _ _ _ (by simp) (by simp)
    (by norm_num)⟩
  intro c hc
  simp only [List.mem_cons, List.mem_singleton, List.not_mem_nil, or_false, or_self] at hc
  rw [hc]
  norm_num

/-- C7: the pole never influences the result of `resolveIK`: any two poles give
the same offsets (and the same fault status). -/
theorem resolveIK_pole_irrelevant [FloorRing K] (sqrt : K → K) (chain : List K)
    (vectors : List (Vector2D K)) (endEffector : Vector2D K) (maximalDistance : K)
    (pole1 pole2 : Vector2D K) :
    resolveIK sqrt chain vectors endEffector maximalDistance pole1
      = resolveIK sqrt chain vectors endEffector maximalDistance pole2 := rfl

/-- C8: `checkTriangleValidity a b c` is true exactly when `a + b ≥ c`,
`a + c ≥ b` and `b + c ≥ a`; it is true on (3,4,5), false on (1,1,10) and true
on the degenerate (0,5,5). -/
theorem checkTriangleValidity_iff :
    (∀ a b c : ℝ, checkTriangleValidity a b c = true ↔ a + b ≥ c ∧ a + c ≥ b ∧ b + c ≥ a)
    ∧ checkTriangleValidity (3 : ℝ) 4 5 = true
    ∧ checkTriangleValidity (1 : ℝ) 1 10 = false
    ∧ checkTriangleValidity (0 : ℝ) 5 5 = true := by
  refine ⟨fun a b c => ?_, ?_, ?_, ?_⟩
  · simp [checkTriangleValidity, and_assoc]
  · simp [checkTriangleValidity]; norm_num
  · simp [checkTriangleValidity]; norm_num
  · simp [checkTriangleValidity]

/-- C9: the thresholded second comparison of the loop never reaches the result:
`resolveIK` is the solver that selects by the first, threshold-free comparison
alone (first candidate exactly when strictly nearer to the hint, else the
second), whatever the pole. -/
theorem resolveIK_eq_resolveIKSingle [FloorRing K] (sqrt : K → K) (chain : List K)
    (vectors : List (Vector2D K)) (endEffector : Vector2D K) (maximalDistance : K)
    (pole : Vector2D K) :
    resolveIK sqrt chain vectors endEffector maximalDistance pole
      = resolveIKSingle sqrt chain vectors endEffector maximalDistance := by
  unfold resolveIK resolveIKSingle
  simp only [loopFrom_eq_single]

/-- C10: when `position1 ≠ position2`, `radius1 ≥ 0`, `radius2 ≥ 0` and
`|d - radius1| ≤ radius2`, `getIntersections` divides by no zero and both
returned points are at distance exactly `radius1` from `position1`, clamped or
not.  Consequently, in `resolveIK`, `offset[i]` for `i ≥ 1` has magnitude
`chain[i]` whenever the cursor entering iteration `i` is not the origin and
`findSide` returned a length that is feasible with `chain[i]` and the cursor
length.  (The cursor is the value computed by the run; the statement needs no
assumption on the iterations before it.) -/
theorem getIntersections_on_first_circle :
    (∀ (position1 : Vector2D ℝ) (radius1 : ℝ) (position2 : Vector2D ℝ) (radius2 : ℝ),
      position1 ≠ position2 → 0 ≤ radius1 → 0 ≤ radius2 →
      |(position2.sub position1).length Real.sqrt - radius1| ≤ radius2 →
      (getIntersections Real.sqrt position1 radius1 position2 radius2).fault = none
      ∧ ((getIntersections Real.sqrt position1 radius1 position2 radius2).val.1.sub
          position1).length Real.sqrt = radius1
      ∧ ((getIntersections Real.sqrt position1 radius1 position2 radius2).val.2.sub
          position1).length Real.sqrt = radius1)
    ∧ (∀ (chain : List ℝ) (vectors : List (Vector2D ℝ)) (endEffector : Vector2D ℝ)
        (maximalDistance : ℝ) (pole : Vector2D ℝ) (i : Nat), 1 ≤ i → i < chain.length →
      resolveIKCursor Real.sqrt chain vectors endEffector maximalDistance i ≠ ⟨0, 0⟩ →
      checkTriangleValidity
        (findSide 0 (chain.take i).sum (chain.getD i 0)
          ((resolveIKCursor Real.sqrt chain vectors endEffector maximalDistance i).length
            Real.sqrt))
        (chain.getD i 0)
        ((resolveIKCursor Real.sqrt chain vectors endEffector maximalDistance i).length
          Real.sqrt) = true →
      ((resolveIK Real.sqrt chain vectors endEffector maximalDistance pole).val.getD i
        ⟨0, 0⟩).length Real.sqrt = chain.getD i 0) := by
  constructor
  · intro position1 radius1 position2 radius2 hne h1 _ h
    refine ⟨?_, intersections_on_first _ _ _ _ hne h1 h _ (Or.inl rfl),
      intersections_on_first _ _ _ _ hne h1 h _ (Or.inr rfl)⟩
    rw [getIntersections_fault, if_neg (length_sub_pos hne).ne']
  · intro chain vectors endEffector maximalDistance pole i h1 h2 hcur hvalid
    rw [resolveIK_getD _ _ _ _ _ _ _ h1 h2]
    exact loopBody_offset_length chain vectors i ⟨[], _⟩ hcur hvalid

/-- In the scenario chain [30,20,30,20,20,30], target (100, 0), the tip offset
has length 30 although the projection is clamped there. -/
theorem getIntersections_on_first_circle_witness :
    ((resolveIK Real.sqrt [30, 20, 30, 20, 20, 30] (List.replicate 6 ⟨0, 0⟩) ⟨100, 0⟩ 150
      ⟨0, 0⟩).val.getD 5 ⟨0, 0⟩).length Real.sqrt = 30 := by
  have hc : resolveIKCursor Real.sqrt [30, 20, 30, 20, 20, 30] (List.replicate 6 ⟨0, 0⟩)
      ⟨100, 0⟩ 150 5 = ⟨100, 0⟩ := by
    unfold resolveIKCursor
    rw [cursorAt_of_le _ _ _ _ _ _ (by simp),
      clampTarget_of_le _ _ (by rw [length_on_x_axis _ (by norm_num)]; norm_num)]
    rfl
  have hs : findSide (0 : ℝ) 120 30 100 = 120 :=
    findSideFrom_of_valid _ _ _ _ (by norm_num) (by simp [checkTriangleValidity]; norm_num)
  have h := getIntersections_on_first_circle.2 [30, 20, 30, 20, 20, 30]
    (List.replicate 6 ⟨0, 0⟩) ⟨100, 0⟩ 150 ⟨0, 0⟩ 5 (by norm_num) (by simp)
    (by rw [hc]; simp [Vector2D.ext_iff2])
    (by
      rw [hc, length_on_x_axis _ (by norm_num)]
      norm_num [hs]
      simp [checkTriangleValidity]; norm_num)
  simpa using h

end IK
